import Mathlib

/-!
Verification of the material system in `src/engine/renderer/Material.cpp`
(Daemon renderer). Each section shallowly embeds one group of functions from
the source and proves the stated properties about the embedding.

Machine integers: all the quantities involved (buffer offsets, counts, ids)
are `uint32_t` in the source and stay far below `2^32` in every statement and
input considered here; they are embedded as `Nat`, with C++ unsigned division
and modulus matching `Nat.div` / `Nat.mod`.
-/

namespace Daemon

/-! ## Buffer layout planner: `MaterialSystem::GenerateWorldMaterialsBuffer`
(Material.cpp lines 645-764, layout passes at 648-689).

Only the fields of `Material` that the layout passes read or write are
embedded. `paddedSize` stands for `material.shader->GetPaddedSize()`
(the shader object is declared outside `src/`; the layout code treats the
padded size as an opaque per-material positive word count). -/

structure LMaterial where
  paddedSize : Nat
  totalStaticDrawSurfCount : Nat
  totalDynamicDrawSurfCount : Nat
  deriving Repr, DecidableEq

/-- Padding inserted before a material region:
`( offset % paddedSize == 0 ) ? 0 : paddedSize - ( offset % paddedSize )`
(Material.cpp lines 658 and 674). -/
def alignPad (offset p : Nat) : Nat :=
  if offset % p = 0 then 0 else p - offset % p

/-- A material together with the two base offsets the layout passes assign to
it (`staticMaterialsSSBOOffset`, `dynamicMaterialsSSBOOffset`). -/
structure LaidMaterial where
  mat : LMaterial
  staticMaterialsSSBOOffset : Nat
  dynamicMaterialsSSBOOffset : Nat
  deriving Repr, DecidableEq

/-- First layout pass (lines 653-664): walk all materials of all packs in
order, align the running offset to the material's padded size, record the
static base offset, and advance by `paddedSize * totalStaticDrawSurfCount`.
The pack structure is irrelevant to the arithmetic, so the input is the
concatenated list of materials in pack order. -/
def layoutStatic (offset : Nat) : List LMaterial → Nat × List (LMaterial × Nat)
  | [] => (offset, [])
  | m :: rest =>
    let off := offset + alignPad offset m.paddedSize
    let next := layoutStatic (off + m.paddedSize * m.totalStaticDrawSurfCount) rest
    (next.1, (m, off) :: next.2)

/-- Second layout pass (lines 669-687): same walk, now recording each
material's dynamic base offset. -/
def layoutDynamic (offset : Nat) : List (LMaterial × Nat) → Nat × List LaidMaterial
  | [] => (offset, [])
  | (m, soff) :: rest =>
    let off := offset + alignPad offset m.paddedSize
    let next := layoutDynamic (off + m.paddedSize * m.totalDynamicDrawSurfCount) rest
    (next.1, ⟨m, soff, off⟩ :: next.2)

/-- The alignment paddings inserted by the dynamic pass, in material order. -/
def layoutDynamicPads (offset : Nat) : List (LMaterial × Nat) → List Nat
  | [] => []
  | (m, _) :: rest =>
    let pad := alignPad offset m.paddedSize
    pad :: layoutDynamicPads (offset + pad + m.paddedSize * m.totalDynamicDrawSurfCount) rest

/-- Result of the two layout passes of `GenerateWorldMaterialsBuffer`:
the laid-out materials, the end of the static region, the total buffer size
(in words), `dynamicDrawSurfsOffset` and `dynamicDrawSurfsSize`
(lines 679-682 and 689). When there are no materials at all the code leaves
the member `dynamicDrawSurfsOffset` untouched; that case is modelled with
offset 0 and is excluded by the nonempty hypotheses of the theorems below. -/
structure LayoutResult where
  laid : List LaidMaterial
  staticEnd : Nat
  totalSize : Nat
  dynamicDrawSurfsOffset : Nat
  dynamicDrawSurfsSize : Nat
  deriving Repr, DecidableEq

/-- The two layout passes of `GenerateWorldMaterialsBuffer` (lines 648-689),
over the concatenation of the three material packs. -/
def generateLayout (mats : List LMaterial) : LayoutResult :=
  let stat := layoutStatic 0 mats
  let dyn := layoutDynamic stat.1 stat.2
  let dynOff := match dyn.2 with
    | [] => 0
    | l :: _ => l.dynamicMaterialsSSBOOffset
  { laid := dyn.2
    staticEnd := stat.1
    totalSize := dyn.1
    dynamicDrawSurfsOffset := dynOff
    dynamicDrawSurfsSize := dyn.1 - dynOff }

/-! ## Batch builder: `MaterialSystem::GenerateWorldCommandBuffer`
(Material.cpp lines 770-791).

`SURFACE_COMMANDS_PER_BATCH` is declared in `Material.h` (not under `src/`),
so the batch size is a parameter `B`; every statement assumes `0 < B`. -/

/-- Per-material batch count (lines 778-780):
`cmdCount % B == 0 ? cmdCount / B : cmdCount / B + 1`. -/
def batchCountOf (B cmdCount : Nat) : Nat :=
  if cmdCount % B = 0 then cmdCount / B else cmdCount / B + 1

/-- The fields of `Material` written by the batch-assignment pass. `cmdCount`
mirrors `material.drawCommands.size()`. -/
structure BatchedMaterial where
  cmdCount : Nat
  surfaceCommandBatchOffset : Nat
  surfaceCommandBatchCount : Nat
  globalID : Nat
  deriving Repr, DecidableEq

/-- The batch-assignment pass (lines 770-791): one linear walk over all
materials of all packs (input: their draw-command counts in pack order),
threading `batchOffset`, `globalID` and `totalBatchCount`. Returns the
updated materials and the final `totalBatchCount`. -/
def generateBatches (B : Nat) (batchOffset globalID total : Nat) :
    List Nat → List BatchedMaterial × Nat
  | [] => ([], total)
  | c :: rest =>
    let bc := batchCountOf B c
    let next := generateBatches B (batchOffset + bc) (globalID + 1) (total + bc) rest
    (⟨c, batchOffset, bc, globalID⟩ :: next.1, next.2)

/-- Entry point as called once per world rebuild, with all counters starting
at zero (lines 770-773). -/
def generateWorldCommandBatches (B : Nat) (cmdCounts : List Nat) :
    List BatchedMaterial × Nat :=
  generateBatches B 0 0 0 cmdCounts

/-! ## `MaterialSystem::AddTexture` (Material.cpp lines 1946-1952).

`MAX_DRAWCOMMAND_TEXTURES` is declared in `Material.h` (not under `src/`), so
the limit is a parameter. The pending draw command is embedded as the list of
textures it holds (`cmd.textures` up to `cmd.textureCount`); `Sys::Drop`
(a fatal engine abort) is embedded as `Except.error` carrying the message. -/

def addTexture (maxTextures : Nat) (cmd : List Nat) (texture : Nat) :
    Except String (List Nat) :=
  if maxTextures ≤ cmd.length then
    Except.error "Exceeded max DrawCommand textures"
  else
    Except.ok (cmd ++ [texture])

/-! ## Debug color-coding divisors in `MaterialSystem::RenderMaterial`
(Material.cpp lines 2212-2277).

Under `r_showGlobalMaterials`, the color index into `colors[6]` is computed
as `int( material.id * 6.0 / divisor )` where the divisor is a pack material
count (`materialPacks[0].materials.size()` in DEPTH mode,
`materialPacks[1].materials.size() + materialPacks[2].materials.size()` in
the other two modes). This embedding records which divisor the executed path
divides by, or `none` when the guards make the path return before any
division. `binderSupported` stands for the pointer comparison
`material.shaderBinder == BindShaderLightMapping || material.shaderBinder ==
BindShaderGeneric3D` (line 2213); the mode enum `MaterialDebugMode` is
declared in a header outside `src/`, with `NONE` the zero value that makes
`r_showGlobalMaterials.Get()` falsy. -/

inductive MaterialDebugMode where
  | NONE
  | DEPTH
  | OPAQUE
  | OPAQUE_TRANSPARENT
  deriving Repr, DecidableEq

/-- Divisor of the color-coding ratio executed by `RenderMaterial` for a
material of sort `sort`, given the three pack sizes; `none` when no division
is reached (guards at lines 2212-2213, 2224, 2241, 2259 and the default
case). -/
def showGlobalMaterialsDivisor (mode : MaterialDebugMode) (sort : Nat)
    (binderSupported : Bool) (pack0Size pack1Size pack2Size : Nat) : Option Nat :=
  if mode = MaterialDebugMode.NONE ∨ sort = 0 ∨ ¬binderSupported then
    none
  else
    match mode with
    | MaterialDebugMode.NONE => none
    | MaterialDebugMode.DEPTH =>
      if sort ≠ 1 then none else some pack0Size
    | MaterialDebugMode.OPAQUE =>
      if sort ≠ 1 then none else some (pack1Size + pack2Size)
    | MaterialDebugMode.OPAQUE_TRANSPARENT =>
      if sort = 0 then none else some (pack1Size + pack2Size)

/-! ## Lemmas about the layout passes -/

theorem alignPad_mod (offset p : Nat) (hp : 0 < p) :
    (offset + alignPad offset p) % p = 0 := by
  unfold alignPad
  by_cases h : offset % p = 0
  · simp [h]
  · have h0 := Nat.div_add_mod offset p
    have hr : offset % p < p := Nat.mod_lt _ hp
    have key : offset + (p - offset % p) = p * (offset / p) + p := by omega
    rw [if_neg h, key]
    simp [Nat.mul_add_mod]

theorem layoutStatic_mem_mod (offset : Nat) (ms : List LMaterial) :
    ∀ x ∈ (layoutStatic offset ms).2, 0 < x.1.paddedSize → x.2 % x.1.paddedSize = 0 := by
  induction ms generalizing offset with
  | nil => simp [layoutStatic]
  | cons m rest ih =>
    intro x hx hp
    simp only [layoutStatic, List.mem_cons] at hx
    rcases hx with h | h
    · subst h
      exact alignPad_mod _ _ hp
    · exact ih _ x h hp

theorem layoutDynamic_mem (offset : Nat) (ms : List (LMaterial × Nat)) :
    ∀ lm ∈ (layoutDynamic offset ms).2,
      (lm.mat, lm.staticMaterialsSSBOOffset) ∈ ms ∧
      (0 < lm.mat.paddedSize → lm.dynamicMaterialsSSBOOffset % lm.mat.paddedSize = 0) := by
  induction ms generalizing offset with
  | nil => simp [layoutDynamic]
  | cons x rest ih =>
    intro lm hlm
    simp only [layoutDynamic, List.mem_cons] at hlm
    rcases hlm with h | h
    · subst h
      exact ⟨List.mem_cons_self _ _, fun hp => alignPad_mod _ _ hp⟩
    · exact ⟨List.mem_cons_of_mem _ (ih _ lm h).1, (ih _ lm h).2⟩

theorem layoutStatic_le (offset : Nat) (ms : List LMaterial) :
    offset ≤ (layoutStatic offset ms).1 ∧
    ∀ x ∈ (layoutStatic offset ms).2,
      x.2 + x.1.paddedSize * x.1.totalStaticDrawSurfCount ≤ (layoutStatic offset ms).1 := by
  induction ms generalizing offset with
  | nil => simp [layoutStatic]
  | cons m rest ih =>
    simp only [layoutStatic, List.mem_cons]
    constructor
    · have h1 := (ih (offset + alignPad offset m.paddedSize +
        m.paddedSize * m.totalStaticDrawSurfCount)).1
      omega
    · intro x hx
      rcases hx with h | h
      · subst h
        have h1 := (ih (offset + alignPad offset m.paddedSize +
          m.paddedSize * m.totalStaticDrawSurfCount)).1
        dsimp only
        omega
      · exact (ih _).2 x h

theorem layoutDynamic_ge (offset : Nat) (ms : List (LMaterial × Nat)) :
    offset ≤ (layoutDynamic offset ms).1 ∧
    ∀ lm ∈ (layoutDynamic offset ms).2,
      offset ≤ lm.dynamicMaterialsSSBOOffset ∧
      lm.dynamicMaterialsSSBOOffset +
        lm.mat.paddedSize * lm.mat.totalDynamicDrawSurfCount ≤ (layoutDynamic offset ms).1 := by
  induction ms generalizing offset with
  | nil => simp [layoutDynamic]
  | cons x rest ih =>
    simp only [layoutDynamic, List.mem_cons]
    constructor
    · have h1 := (ih (offset + alignPad offset x.1.paddedSize +
        x.1.paddedSize * x.1.totalDynamicDrawSurfCount)).1
      omega
    · intro lm hlm
      rcases hlm with h | h
      · subst h
        have h1 := (ih (offset + alignPad offset x.1.paddedSize +
          x.1.paddedSize * x.1.totalDynamicDrawSurfCount)).1
        dsimp only
        omega
      · have h1 := (ih (offset + alignPad offset x.1.paddedSize +
          x.1.paddedSize * x.1.totalDynamicDrawSurfCount)).2 lm h
        omega

theorem layoutDynamic_sum (offset : Nat) (ms : List (LMaterial × Nat)) :
    (layoutDynamic offset ms).1 =
      offset + (layoutDynamicPads offset ms).sum +
        (ms.map (fun x => x.1.paddedSize * x.1.totalDynamicDrawSurfCount)).sum := by
  induction ms generalizing offset with
  | nil => simp [layoutDynamic, layoutDynamicPads]
  | cons x rest ih =>
    simp only [layoutDynamic, layoutDynamicPads, List.map_cons, List.sum_cons]
    rw [ih]
    ring

theorem layoutDynamic_mats (offset : Nat) (ms : List (LMaterial × Nat)) :
    ((layoutDynamic offset ms).2.map LaidMaterial.mat) = ms.map Prod.fst := by
  induction ms generalizing offset with
  | nil => simp [layoutDynamic]
  | cons x rest ih => simp [layoutDynamic, ih]

theorem layoutDynamic_sum_pd (offset : Nat) (ms : List (LMaterial × Nat)) :
    ((layoutDynamic offset ms).2.map
      (fun lm => lm.mat.paddedSize * lm.mat.totalDynamicDrawSurfCount)).sum =
    (ms.map (fun x => x.1.paddedSize * x.1.totalDynamicDrawSurfCount)).sum := by
  induction ms generalizing offset with
  | nil => simp [layoutDynamic]
  | cons x rest ih => simp [layoutDynamic, ih]

/-- C2: after `MaterialSystem::GenerateWorldMaterialsBuffer` runs, every
Material's static region base offset (`staticMaterialsSSBOOffset`) and
dynamic region base offset (`dynamicMaterialsSSBOOffset`) are integer
multiples of that Material's padded per-instance stride
(`material.shader->GetPaddedSize()`). -/
theorem generateWorldMaterialsBuffer_offsets_aligned (mats : List LMaterial)
    (lm : LaidMaterial) (hmem : lm ∈ (generateLayout mats).laid)
    (hp : 0 < lm.mat.paddedSize) :
    lm.staticMaterialsSSBOOffset % lm.mat.paddedSize = 0 ∧
    lm.dynamicMaterialsSSBOOffset % lm.mat.paddedSize = 0 := by
  have hmem2 : lm ∈ (layoutDynamic (layoutStatic 0 mats).1 (layoutStatic 0 mats).2).2 := hmem
  have h1 := layoutDynamic_mem _ _ lm hmem2
  exact ⟨layoutStatic_mem_mod 0 mats (lm.mat, lm.staticMaterialsSSBOOffset) h1.1 hp,
    h1.2 hp⟩

/-- Closed instance of the C2 theorem at a one-material layout. -/
theorem generateWorldMaterialsBuffer_offsets_aligned_witness :
    (⟨⟨4, 1, 1⟩, 0, 4⟩ : LaidMaterial) ∈ (generateLayout [⟨4, 1, 1⟩]).laid ∧
    (0 : Nat) < 4 ∧
    ((0 : Nat) % 4 = 0 ∧ (4 : Nat) % 4 = 0) :=
  ⟨by decide, by decide,
    generateWorldMaterialsBuffer_offsets_aligned [⟨4, 1, 1⟩] ⟨⟨4, 1, 1⟩, 0, 4⟩
      (by decide) (by decide)⟩

/-- C3 counterexample: with two materials of padded strides 4 and 6 (each
with one dynamic instance and no static instances), the dynamic pass inserts
2 words of alignment padding between the two dynamic regions, so
`dynamicDrawSurfsSize` is 12 while the sum of `paddedStride × dynamicCount`
is 10: the claimed equality fails. -/
theorem generateWorldMaterialsBuffer_dynamic_size_counterexample :
    (generateLayout [⟨4, 0, 1⟩, ⟨6, 0, 1⟩]).dynamicDrawSurfsSize ≠
      ((generateLayout [⟨4, 0, 1⟩, ⟨6, 0, 1⟩]).laid.map
        (fun lm => lm.mat.paddedSize * lm.mat.totalDynamicDrawSurfCount)).sum := by
  decide

/-- C3 (amended): `dynamicDrawSurfsSize` equals the sum over all Materials of
`paddedStride × totalDynamicDrawSurfCount` plus the alignment padding the
dynamic pass inserts before every Material's dynamic region other than the
first (the first padding precedes `dynamicDrawSurfsOffset` and is not part of
the region); and no static-stage instance slot (the `k`-th slot of a
Material, `k < totalStaticDrawSurfCount`) overlaps the dynamic range
`[dynamicDrawSurfsOffset, dynamicDrawSurfsOffset + dynamicDrawSurfsSize)`:
every static slot ends at or before `dynamicDrawSurfsOffset`. -/
theorem layoutStatic_cons_snd (offset : Nat) (m : LMaterial) (ms : List LMaterial) :
    (layoutStatic offset (m :: ms)).2 =
      (m, offset + alignPad offset m.paddedSize) ::
        (layoutStatic (offset + alignPad offset m.paddedSize +
          m.paddedSize * m.totalStaticDrawSurfCount) ms).2 := rfl

theorem layoutDynamic_cons_fst (offset : Nat) (m : LMaterial) (s : Nat)
    (xs : List (LMaterial × Nat)) :
    (layoutDynamic offset ((m, s) :: xs)).1 =
      (layoutDynamic (offset + alignPad offset m.paddedSize +
        m.paddedSize * m.totalDynamicDrawSurfCount) xs).1 := rfl

theorem layoutDynamicPads_cons (offset : Nat) (m : LMaterial) (s : Nat)
    (xs : List (LMaterial × Nat)) :
    layoutDynamicPads offset ((m, s) :: xs) =
      alignPad offset m.paddedSize ::
        layoutDynamicPads (offset + alignPad offset m.paddedSize +
          m.paddedSize * m.totalDynamicDrawSurfCount) xs := rfl

/-- C3 (amended): `dynamicDrawSurfsSize` equals the sum over all Materials of
`paddedStride × totalDynamicDrawSurfCount` plus the alignment padding the
dynamic pass inserts before every Material's dynamic region other than the
first (the first padding precedes `dynamicDrawSurfsOffset` and is not part of
the region); and no static-stage instance slot (the `k`-th slot of a
Material, `k < totalStaticDrawSurfCount`) overlaps the dynamic range
`[dynamicDrawSurfsOffset, dynamicDrawSurfsOffset + dynamicDrawSurfsSize)`:
every static slot ends at or before `dynamicDrawSurfsOffset`. -/
theorem generateWorldMaterialsBuffer_dynamic_region (mats : List LMaterial)
    (h : mats ≠ []) :
    (generateLayout mats).dynamicDrawSurfsSize =
      ((generateLayout mats).laid.map
        (fun lm => lm.mat.paddedSize * lm.mat.totalDynamicDrawSurfCount)).sum +
      ((layoutDynamicPads (layoutStatic 0 mats).1 (layoutStatic 0 mats).2).drop 1).sum ∧
    ∀ lm ∈ (generateLayout mats).laid, ∀ k < lm.mat.totalStaticDrawSurfCount,
      lm.staticMaterialsSSBOOffset + (k + 1) * lm.mat.paddedSize ≤
        (generateLayout mats).dynamicDrawSurfsOffset := by
  obtain ⟨m, rest, rfl⟩ := List.exists_cons_of_ne_nil h
  have hS2 := layoutStatic_cons_snd 0 m rest
  have hdynOff : (generateLayout (m :: rest)).dynamicDrawSurfsOffset =
      (layoutStatic 0 (m :: rest)).1 +
        alignPad (layoutStatic 0 (m :: rest)).1 m.paddedSize := rfl
  have hlaid : (generateLayout (m :: rest)).laid =
      (layoutDynamic (layoutStatic 0 (m :: rest)).1 (layoutStatic 0 (m :: rest)).2).2 := rfl
  have hsize : (generateLayout (m :: rest)).dynamicDrawSurfsSize =
      (layoutDynamic (layoutStatic 0 (m :: rest)).1 (layoutStatic 0 (m :: rest)).2).1 -
        ((layoutStatic 0 (m :: rest)).1 +
          alignPad (layoutStatic 0 (m :: rest)).1 m.paddedSize) := rfl
  constructor
  · have hpd := layoutDynamic_sum_pd (layoutStatic 0 (m :: rest)).1
      (layoutStatic 0 (m :: rest)).2
    rw [hsize, hlaid, hpd]
    rw [hS2, layoutDynamic_cons_fst, layoutDynamicPads_cons]
    rw [layoutDynamic_sum ((layoutStatic 0 (m :: rest)).1 +
      alignPad (layoutStatic 0 (m :: rest)).1 m.paddedSize +
      m.paddedSize * m.totalDynamicDrawSurfCount)]
    simp only [List.map_cons, List.sum_cons, List.drop_succ_cons, List.drop_zero]
    omega
  · intro lm hmem k hk
    rw [hlaid] at hmem
    have h1 := layoutDynamic_mem _ _ lm hmem
    have h2 := (layoutStatic_le 0 (m :: rest)).2 _ h1.1
    dsimp only at h2
    have h3 : (k + 1) * lm.mat.paddedSize ≤
        lm.mat.paddedSize * lm.mat.totalStaticDrawSurfCount := by
      rw [Nat.mul_comm]
      exact Nat.mul_le_mul_left _ hk
    rw [hdynOff]
    omega

/-- Closed instance of the amended C3 theorem at a one-material layout. -/
theorem generateWorldMaterialsBuffer_dynamic_region_witness :
    (generateLayout [⟨4, 1, 1⟩]).dynamicDrawSurfsSize =
      ((generateLayout [⟨4, 1, 1⟩]).laid.map
        (fun lm => lm.mat.paddedSize * lm.mat.totalDynamicDrawSurfCount)).sum +
      ((layoutDynamicPads (layoutStatic 0 [⟨4, 1, 1⟩]).1
        (layoutStatic 0 [⟨4, 1, 1⟩]).2).drop 1).sum ∧
    (⟨⟨4, 1, 1⟩, 0, 4⟩ : LaidMaterial).staticMaterialsSSBOOffset +
      (0 + 1) * (⟨⟨4, 1, 1⟩, 0, 4⟩ : LaidMaterial).mat.paddedSize ≤
      (generateLayout [⟨4, 1, 1⟩]).dynamicDrawSurfsOffset :=
  ⟨(generateWorldMaterialsBuffer_dynamic_region [⟨4, 1, 1⟩] (by decide)).1,
   (generateWorldMaterialsBuffer_dynamic_region [⟨4, 1, 1⟩] (by decide)).2
     ⟨⟨4, 1, 1⟩, 0, 4⟩ (by decide) 0 (by decide)⟩

/-! ## Lemmas about the batch-assignment pass -/

theorem batchCountOf_eq_ceil (B c : Nat) (hB : 0 < B) :
    batchCountOf B c = (c + B - 1) / B := by
  unfold batchCountOf
  have h0 := Nat.div_add_mod c B
  by_cases h : c % B = 0
  · rw [if_pos h]
    have e1 : c + B - 1 = B * (c / B) + (B - 1) := by omega
    rw [e1, Nat.mul_add_div hB]
    have e2 : (B - 1) / B = 0 := Nat.div_eq_of_lt (by omega)
    omega
  · rw [if_neg h]
    have hr : c % B < B := Nat.mod_lt _ hB
    have e0 : B * (c / B + 1) = B * (c / B) + B := by ring
    have e1 : c + B - 1 = B * (c / B + 1) + (c % B - 1) := by omega
    rw [e1, Nat.mul_add_div hB]
    have e2 : (c % B - 1) / B = 0 := Nat.div_eq_of_lt (by omega)
    omega

theorem sum_take_le_sum (l : List Nat) (i : Nat) : (l.take i).sum ≤ l.sum := by
  induction l generalizing i with
  | nil => simp
  | cons a t ih =>
    cases i with
    | zero => simp
    | succ j =>
      simp only [List.take_succ_cons, List.sum_cons]
      have := ih j
      omega

theorem generateBatches_entries (B : Nat) (cs : List Nat) (off gid tot : Nat) :
    ((generateBatches B off gid tot cs).1.length = cs.length) ∧
    ((generateBatches B off gid tot cs).2 = tot + (cs.map (batchCountOf B)).sum) ∧
    ∀ i (h : i < cs.length) (h2 : i < (generateBatches B off gid tot cs).1.length),
      (generateBatches B off gid tot cs).1.get ⟨i, h2⟩ =
        ⟨cs.get ⟨i, h⟩, off + ((cs.take i).map (batchCountOf B)).sum,
         batchCountOf B (cs.get ⟨i, h⟩), gid + i⟩ := by
  induction cs generalizing off gid tot with
  | nil => simp [generateBatches]
  | cons c rest ih =>
    refine ⟨?_, ?_, ?_⟩
    · simp only [generateBatches, List.length_cons]
      rw [(ih _ _ _).1]
    · simp only [generateBatches, List.map_cons, List.sum_cons]
      rw [(ih _ _ _).2.1]
      ring
    · intro i h h2
      match i with
      | 0 => simp [generateBatches]
      | Nat.succ j =>
        simp only [generateBatches, List.get_cons_succ, List.take_succ_cons,
          List.map_cons, List.sum_cons]
        have h3 : j < rest.length := by
          simpa using h
        have h4 : j < (generateBatches B (off + batchCountOf B c) (gid + 1)
            (tot + batchCountOf B c) rest).1.length := by
          rw [((ih (off + batchCountOf B c) (gid + 1) (tot + batchCountOf B c))).1]
          exact h3
        rw [(ih (off + batchCountOf B c) (gid + 1) (tot + batchCountOf B c)).2.2 j h3 h4]
        have e1 : off + batchCountOf B c + ((rest.take j).map (batchCountOf B)).sum =
            off + (batchCountOf B c + ((rest.take j).map (batchCountOf B)).sum) := by
          omega
        have e2 : gid + 1 + j = gid + j.succ := by omega
        rw [e1, e2]

/-- C4: after `MaterialSystem::GenerateWorldCommandBuffer` runs, every
Material's `surfaceCommandBatchCount` equals the ceiling of its draw-command
count divided by `SURFACE_COMMANDS_PER_BATCH` (`B`); `surfaceCommandBatchOffset`
is the sum of the batch counts of all earlier Materials, in pack order, so the
offsets are monotonically non-decreasing; and `totalBatchCount` is the sum of
all batch counts. -/
theorem generateWorldCommandBuffer_batches (B : Nat) (hB : 0 < B)
    (cmdCounts : List Nat) :
    (∀ i (h : i < (generateWorldCommandBatches B cmdCounts).1.length),
      ((generateWorldCommandBatches B cmdCounts).1.get ⟨i, h⟩).surfaceCommandBatchCount =
        (((generateWorldCommandBatches B cmdCounts).1.get ⟨i, h⟩).cmdCount + B - 1) / B) ∧
    (∀ i (h : i < (generateWorldCommandBatches B cmdCounts).1.length),
      ((generateWorldCommandBatches B cmdCounts).1.get ⟨i, h⟩).surfaceCommandBatchOffset =
        ((cmdCounts.take i).map (batchCountOf B)).sum) ∧
    (∀ i j (hi : i < (generateWorldCommandBatches B cmdCounts).1.length)
      (hj : j < (generateWorldCommandBatches B cmdCounts).1.length), i ≤ j →
      ((generateWorldCommandBatches B cmdCounts).1.get ⟨i, hi⟩).surfaceCommandBatchOffset ≤
        ((generateWorldCommandBatches B cmdCounts).1.get ⟨j, hj⟩).surfaceCommandBatchOffset) ∧
    ((generateWorldCommandBatches B cmdCounts).2 = (cmdCounts.map (batchCountOf B)).sum) := by
  have hlen : (generateWorldCommandBatches B cmdCounts).1.length = cmdCounts.length :=
    (generateBatches_entries B cmdCounts 0 0 0).1
  have hget : ∀ i (h : i < cmdCounts.length)
      (h2 : i < (generateWorldCommandBatches B cmdCounts).1.length),
      (generateWorldCommandBatches B cmdCounts).1.get ⟨i, h2⟩ =
        ⟨cmdCounts.get ⟨i, h⟩, 0 + ((cmdCounts.take i).map (batchCountOf B)).sum,
         batchCountOf B (cmdCounts.get ⟨i, h⟩), 0 + i⟩ :=
    (generateBatches_entries B cmdCounts 0 0 0).2.2
  refine ⟨?_, ?_, ?_, ?_⟩
  · intro i h
    rw [hget i (hlen ▸ h) h]
    exact batchCountOf_eq_ceil B _ hB
  · intro i h
    rw [hget i (hlen ▸ h) h]
    simp
  · intro i j hi hj hij
    rw [hget i (hlen ▸ hi) hi, hget j (hlen ▸ hj) hj]
    simp only [Nat.zero_add]
    rw [List.map_take, List.map_take]
    calc ((cmdCounts.map (batchCountOf B)).take i).sum
        = (((cmdCounts.map (batchCountOf B)).take j).take i).sum := by
          rw [List.take_take, Nat.min_eq_left hij]
      _ ≤ ((cmdCounts.map (batchCountOf B)).take j).sum := sum_take_le_sum _ _
  · have := (generateBatches_entries B cmdCounts 0 0 0).2.1
    simpa using this

/-- Closed instance of the C4 theorem at batch size 2 and command counts
3, 0, 5 (batch counts 2, 0, 3). -/
theorem generateWorldCommandBuffer_batches_witness :
    ((generateWorldCommandBatches 2 [3, 0, 5]).1.get
        ⟨2, by decide⟩).surfaceCommandBatchOffset =
      (([3, 0, 5].take 2).map (batchCountOf 2)).sum ∧
    (generateWorldCommandBatches 2 [3, 0, 5]).2 =
      ([3, 0, 5].map (batchCountOf 2)).sum :=
  ⟨(generateWorldCommandBuffer_batches 2 (by decide) [3, 0, 5]).2.1 2 (by decide),
   (generateWorldCommandBuffer_batches 2 (by decide) [3, 0, 5]).2.2.2⟩

/-- C9: `MaterialSystem::AddTexture` aborts fatally (with the diagnostic
message passed to `Sys::Drop`) when the pending draw command already holds
the maximum number of textures, and otherwise appends the texture, growing
the texture count by exactly one. -/
theorem addTexture_spec (maxTextures : Nat) (cmd : List Nat) (texture : Nat) :
    (maxTextures ≤ cmd.length →
      addTexture maxTextures cmd texture =
        Except.error "Exceeded max DrawCommand textures") ∧
    (cmd.length < maxTextures →
      addTexture maxTextures cmd texture = Except.ok (cmd ++ [texture]) ∧
      (cmd ++ [texture]).length = cmd.length + 1) := by
  constructor
  · intro h
    simp [addTexture, h]
  · intro h
    have h2 : ¬ maxTextures ≤ cmd.length := by omega
    simp [addTexture, h2]

/-- Closed instance of the C9 theorem, on both sides of the limit. -/
theorem addTexture_spec_witness :
    addTexture 2 [5, 6] 7 = Except.error "Exceeded max DrawCommand textures" ∧
    addTexture 2 [5] 7 = Except.ok [5, 7] :=
  ⟨(addTexture_spec 2 [5, 6] 7).1 (by decide),
   ((addTexture_spec 2 [5] 7).2 (by decide)).1⟩

/-- C10: the color-coded debug visualization of `RenderMaterial` divides by a
pack material count, and the divisor is zero in a reachable state: in DEPTH
mode the guards let a material of sort 1 through while the divisor is
`materialPacks[0].materials.size()`, which is 0 when the depth pack is empty
(here pack sizes 0, 5, 0); the division is unguarded. -/
theorem renderMaterial_debug_divisor_zero :
    showGlobalMaterialsDivisor MaterialDebugMode.DEPTH 1 true 0 5 0 = some 0 ∧
    showGlobalMaterialsDivisor MaterialDebugMode.DEPTH 2 true 0 5 0 = none := by
  constructor
  · decide
  · decide

/-! ## `ComputeDynamics` (Material.cpp lines 55-191).

The enums mirror `colorGen_t`, `alphaGen_t`, `texMod_t` and `genFunc_t` from
the renderer headers; only the enumerators `ComputeDynamics` distinguishes
are listed, every remaining enumerator taking the default/static branch of
the corresponding switch. Expression fields (`ifExp` etc.) are embedded by
their `numOps` counts, the only thing the function reads of them. -/

inductive colorGen_t where
  | CGEN_IDENTITY
  | CGEN_ONE_MINUS_VERTEX
  | CGEN_IDENTITY_LIGHTING
  | CGEN_VERTEX
  | CGEN_CONST
  | CGEN_ENTITY
  | CGEN_ONE_MINUS_ENTITY
  | CGEN_WAVEFORM
  | CGEN_CUSTOM_RGB
  | CGEN_CUSTOM_RGBs
  deriving Repr, DecidableEq

inductive alphaGen_t where
  | AGEN_IDENTITY
  | AGEN_ONE_MINUS_VERTEX
  | AGEN_VERTEX
  | AGEN_CONST
  | AGEN_ENTITY
  | AGEN_ONE_MINUS_ENTITY
  | AGEN_WAVEFORM
  | AGEN_CUSTOM
  deriving Repr, DecidableEq

inductive texMod_t where
  | TMOD_NONE
  | TMOD_SCALE
  | TMOD_TRANSFORM
  | TMOD_TURBULENT
  | TMOD_ENTITY_TRANSLATE
  | TMOD_SCROLL
  | TMOD_STRETCH
  | TMOD_ROTATE
  | TMOD_SCROLL2
  | TMOD_SCALE2
  | TMOD_CENTERSCALE
  | TMOD_SHEAR
  | TMOD_ROTATE2
  deriving Repr, DecidableEq

inductive genFunc_t where
  | GF_NONE
  | GF_SIN
  deriving Repr, DecidableEq

structure texModInfo_t where
  type : texMod_t
  waveFunc : genFunc_t
  sExpNumOps : Nat
  tExpNumOps : Nat
  rExpNumOps : Nat
  deriving Repr, DecidableEq

structure textureBundle_t where
  texMods : List texModInfo_t
  isVideoMap : Bool
  numImages : Nat
  deriving Repr, DecidableEq

structure shaderStage_t where
  rgbGen : colorGen_t
  alphaGen : alphaGen_t
  bundle : List textureBundle_t
  ifExpNumOps : Nat
  alphaExpNumOps : Nat
  alphaTestExpNumOps : Nat
  rgbExpNumOps : Nat
  redExpNumOps : Nat
  greenExpNumOps : Nat
  blueExpNumOps : Nat
  deformMagnitudeExpNumOps : Nat
  depthScaleExpNumOps : Nat
  fogDensityExpNumOps : Nat
  fresnelBiasExpNumOps : Nat
  fresnelPowerExpNumOps : Nat
  fresnelScaleExpNumOps : Nat
  normalIntensityExpNumOps : Nat
  refractionIndexExpNumOps : Nat
  dynamic : Bool
  colorDynamic : Bool
  texMatricesDynamic : Bool
  texturesDynamic : Bool
  deriving Repr, DecidableEq

/-- The `rgbGen` switch (lines 58-92): only waveform and custom RGB
generators set `colorDynamic`. -/
def colorGenDynamic : colorGen_t → Bool
  | colorGen_t.CGEN_WAVEFORM => true
  | colorGen_t.CGEN_CUSTOM_RGB => true
  | colorGen_t.CGEN_CUSTOM_RGBs => true
  | _ => false

/-- The `alphaGen` switch (lines 94-115). -/
def alphaGenDynamic : alphaGen_t → Bool
  | alphaGen_t.AGEN_WAVEFORM => true
  | alphaGen_t.AGEN_CUSTOM => true
  | _ => false

/-- One iteration of the texture-modifier switch (lines 119-168). In the
`TMOD_STRETCH` case the source reads `bundle.texMods->wave.func`, i.e. the
wave of the bundle's FIRST modifier `texMods[0]`, not of the modifier at the
loop index `i`; `first` is that first modifier. -/
def texModDynamic (first : texModInfo_t) (tm : texModInfo_t) : Bool :=
  match tm.type with
  | texMod_t.TMOD_NONE => false
  | texMod_t.TMOD_SCALE => false
  | texMod_t.TMOD_TRANSFORM => false
  | texMod_t.TMOD_TURBULENT => true
  | texMod_t.TMOD_ENTITY_TRANSLATE => true
  | texMod_t.TMOD_SCROLL => true
  | texMod_t.TMOD_STRETCH => first.waveFunc != genFunc_t.GF_NONE
  | texMod_t.TMOD_ROTATE => true
  | texMod_t.TMOD_SCROLL2 => tm.sExpNumOps != 0 || tm.tExpNumOps != 0
  | texMod_t.TMOD_SCALE2 => tm.sExpNumOps != 0 || tm.tExpNumOps != 0
  | texMod_t.TMOD_CENTERSCALE => tm.sExpNumOps != 0 || tm.tExpNumOps != 0
  | texMod_t.TMOD_SHEAR => tm.sExpNumOps != 0 || tm.tExpNumOps != 0
  | texMod_t.TMOD_ROTATE2 => tm.rExpNumOps != 0

/-- Whether the modifier loop over one bundle sets `texMatricesDynamic`. -/
def bundleTexModsDynamic (b : textureBundle_t) : Bool :=
  match b.texMods with
  | [] => false
  | first :: _ => b.texMods.any (texModDynamic first)

/-- `ComputeDynamics` (lines 55-191): returns the stage with the four
dynamic flags updated. `colorDynamic` is reset first (line 57); the other
three flags are only ever set, so their incoming values survive. -/
def ComputeDynamics (s : shaderStage_t) : shaderStage_t :=
  let colorDynamic := colorGenDynamic s.rgbGen || alphaGenDynamic s.alphaGen
  let texMatricesDynamic := s.texMatricesDynamic || s.bundle.any bundleTexModsDynamic
  let texturesDynamic :=
    s.texturesDynamic || s.bundle.any (fun b => b.isVideoMap || b.numImages > 1)
  let dynamic := s.dynamic || s.ifExpNumOps != 0 ||
    s.alphaExpNumOps != 0 || s.alphaTestExpNumOps != 0 ||
    s.rgbExpNumOps != 0 || s.redExpNumOps != 0 || s.greenExpNumOps != 0 ||
    s.blueExpNumOps != 0 ||
    s.deformMagnitudeExpNumOps != 0 ||
    s.depthScaleExpNumOps != 0 || s.fogDensityExpNumOps != 0 ||
    s.fresnelBiasExpNumOps != 0 || s.fresnelPowerExpNumOps != 0 ||
    s.fresnelScaleExpNumOps != 0 || s.normalIntensityExpNumOps != 0 ||
    s.refractionIndexExpNumOps != 0 ||
    colorDynamic || texMatricesDynamic || texturesDynamic
  { s with
    colorDynamic := colorDynamic
    texMatricesDynamic := texMatricesDynamic
    texturesDynamic := texturesDynamic
    dynamic := dynamic }

/-- The time-varying texture-modifier condition as claim C8 states it: the
waveform test of a stretch modifier reads the modifier's OWN wave. Written
from the claim for comparison with the source-derived `texModDynamic`. -/
def texModDynamicClaim (tm : texModInfo_t) : Bool :=
  match tm.type with
  | texMod_t.TMOD_TURBULENT => true
  | texMod_t.TMOD_ENTITY_TRANSLATE => true
  | texMod_t.TMOD_SCROLL => true
  | texMod_t.TMOD_STRETCH => tm.waveFunc != genFunc_t.GF_NONE
  | texMod_t.TMOD_ROTATE => true
  | texMod_t.TMOD_SCROLL2 => tm.sExpNumOps != 0 || tm.tExpNumOps != 0
  | texMod_t.TMOD_SCALE2 => tm.sExpNumOps != 0 || tm.tExpNumOps != 0
  | texMod_t.TMOD_CENTERSCALE => tm.sExpNumOps != 0 || tm.tExpNumOps != 0
  | texMod_t.TMOD_SHEAR => tm.sExpNumOps != 0 || tm.tExpNumOps != 0
  | texMod_t.TMOD_ROTATE2 => tm.rExpNumOps != 0
  | _ => false

/-- The sufficient condition claim C8 states for a stage to be marked
dynamic, written from the claim's words. -/
def stageDynamicClaim (s : shaderStage_t) : Bool :=
  colorGenDynamic s.rgbGen || alphaGenDynamic s.alphaGen ||
  s.bundle.any (fun b => b.texMods.any texModDynamicClaim) ||
  s.bundle.any (fun b => b.isVideoMap || b.numImages > 1)

/-- A fresh stage with identity generators, no expressions, all flags clear,
and one bundle whose modifiers are a waveless scale followed by a waveform
stretch. -/
def stretchBugStage : shaderStage_t :=
  { rgbGen := colorGen_t.CGEN_IDENTITY
    alphaGen := alphaGen_t.AGEN_IDENTITY
    bundle := [{ texMods := [⟨texMod_t.TMOD_SCALE, genFunc_t.GF_NONE, 0, 0, 0⟩,
                             ⟨texMod_t.TMOD_STRETCH, genFunc_t.GF_SIN, 0, 0, 0⟩]
                 isVideoMap := false
                 numImages := 1 }]
    ifExpNumOps := 0
    alphaExpNumOps := 0
    alphaTestExpNumOps := 0
    rgbExpNumOps := 0
    redExpNumOps := 0
    greenExpNumOps := 0
    blueExpNumOps := 0
    deformMagnitudeExpNumOps := 0
    depthScaleExpNumOps := 0
    fogDensityExpNumOps := 0
    fresnelBiasExpNumOps := 0
    fresnelPowerExpNumOps := 0
    fresnelScaleExpNumOps := 0
    normalIntensityExpNumOps := 0
    refractionIndexExpNumOps := 0
    dynamic := false
    colorDynamic := false
    texMatricesDynamic := false
    texturesDynamic := false }

/-- C8: a stage whose bundle carries a waveform stretch modifier is
time-varying, so the claim marks it dynamic; but `ComputeDynamics` tests
`bundle.texMods->wave.func` — the wave of `texMods[0]` — instead of the wave
of the modifier at the loop index (line 135), so with a waveless scale
modifier in front the waveform stretch leaves the stage static: the code
contradicts the claimed (and evidently intended) behaviour at this input. -/
theorem computeDynamics_stretch_wave_ignored :
    stageDynamicClaim stretchBugStage = true ∧
    (ComputeDynamics stretchBugStage).dynamic = false ∧
    (ComputeDynamics stretchBugStage).texMatricesDynamic = false := by
  refine ⟨by decide, by decide, by decide⟩

/-! ## Texture residency in `MaterialSystem::RenderMaterial`
(Material.cpp lines 2174-2206).

Textures are embedded as numeric handles. The bindless-residency driver
(`Texture::MakeResident`, `Texture::MakeNonResident`,
`glIsTextureHandleResidentARB`) is outside the repository; it is modelled
from the spec: residency is a working set of bounded capacity ("exhausting
bindless texture residency" under "memory pressure"): making a texture
resident succeeds exactly when the working set has room, and the query
reports membership. -/

structure RMaterial where
  id : Nat
  textures : List Nat
  texturesResident : Bool
  deriving Repr, DecidableEq

structure ResidencyState where
  resident : List Nat
  capacity : Nat
  deriving Repr, DecidableEq

/-- Modelled from the spec: `glIsTextureHandleResidentARB` reports whether
the texture is in the resident working set. -/
def isResident (st : ResidencyState) (t : Nat) : Bool :=
  decide (t ∈ st.resident)

/-- Modelled from the spec: `Texture::MakeResident` adds the texture to the
working set when there is room, and fails (leaves it non-resident) under
memory pressure. -/
def makeResident (st : ResidencyState) (t : Nat) : ResidencyState :=
  if t ∈ st.resident then st
  else if st.resident.length < st.capacity then
    { st with resident := st.resident ++ [t] }
  else st

/-- Modelled from the spec: `Texture::MakeNonResident` removes the texture
from the working set. -/
def makeNonResident (st : ResidencyState) (t : Nat) : ResidencyState :=
  { st with resident := st.resident.erase t }

/-- The inner eviction loop body (lines 2187-2191): every resident texture
of one previously-rendered material is made non-resident. -/
def evictMaterialTextures (st : ResidencyState) (m : RMaterial) : ResidencyState :=
  m.textures.foldl (fun acc t => if isResident acc t then makeNonResident acc t else acc) st

/-- The eviction loop (lines 2185-2193): the textures of ALL
previously-rendered materials are made non-resident, in render order. -/
def evictAllRendered (st : ResidencyState) (rendered : List RMaterial) : ResidencyState :=
  rendered.foldl evictMaterialTextures st

/-- The per-texture residency loop of `RenderMaterial` (lines 2175-2204):
for each texture, try to make it resident; on failure evict everything
rendered so far and retry; if the retry also fails, warn and break. Returns
the final residency state and whether the warning was reached. -/
def renderTextureLoop (rendered : List RMaterial) :
    List Nat → ResidencyState → ResidencyState × Bool
  | [], st => (st, false)
  | t :: rest, st =>
    if isResident st t then renderTextureLoop rendered rest st
    else
      let st1 := makeResident st t
      if isResident st1 t then renderTextureLoop rendered rest st1
      else
        let st2 := evictAllRendered st1 rendered
        let st3 := makeResident st2 t
        if isResident st3 t then renderTextureLoop rendered rest st3
        else (st3, true)

/-- The residency section of `RenderMaterial` (lines 2174-2206): the texture
loop runs only when the material's textures are not already marked resident,
and `material.texturesResident` is set to `true` afterwards in every case
(line 2206). Result: final state, whether the warning fired, and the final
value of `material.texturesResident`. -/
def renderMaterialResidency (material : RMaterial) (rendered : List RMaterial)
    (st : ResidencyState) : ResidencyState × Bool × Bool :=
  if material.texturesResident then (st, false, true)
  else
    let r := renderTextureLoop rendered material.textures st
    (r.1, r.2, true)

/-- C7 counterexample: capacity 2, materials 0 and 1 already rendered with
one resident texture each (10 and 11), and a new material with one texture
12. Evicting only the oldest-rendered material (texture 10) frees enough
room for texture 12, so under the claim texture 11 stays resident; the code
instead evicts everything rendered so far, leaving only texture 12
resident. -/
theorem renderMaterial_residency_counterexample :
    (renderMaterialResidency ⟨2, [12], false⟩
      [⟨0, [10], true⟩, ⟨1, [11], true⟩] ⟨[10, 11], 2⟩).1.resident = [12] ∧
    isResident (renderMaterialResidency ⟨2, [12], false⟩
      [⟨0, [10], true⟩, ⟨1, [11], true⟩] ⟨[10, 11], 2⟩).1 11 = false ∧
    (evictMaterialTextures ⟨[10, 11], 2⟩ ⟨0, [10], true⟩).resident.length +
      [12].length ≤ 2 := by
  refine ⟨by decide, by decide, by decide⟩

theorem evictStep_subset (st : ResidencyState) (t x : Nat)
    (h : x ∈ (if isResident st t then makeNonResident st t else st).resident) :
    x ∈ st.resident := by
  by_cases hc : isResident st t
  · rw [if_pos hc] at h
    exact List.mem_of_mem_erase h
  · rwa [if_neg hc] at h

theorem evictFold_subset (l : List Nat) : ∀ (st : ResidencyState) (x : Nat),
    x ∈ (l.foldl (fun acc t => if isResident acc t then makeNonResident acc t else acc)
      st).resident → x ∈ st.resident := by
  induction l with
  | nil => intro st x h; simpa using h
  | cons a l ih =>
    intro st x h
    simp only [List.foldl_cons] at h
    exact evictStep_subset st a x (ih _ x h)

theorem evictFold_nodup (l : List Nat) : ∀ st : ResidencyState, st.resident.Nodup →
    ((l.foldl (fun acc t => if isResident acc t then makeNonResident acc t else acc)
      st).resident).Nodup := by
  induction l with
  | nil => intro st h; simpa using h
  | cons a l ih =>
    intro st h
    simp only [List.foldl_cons]
    refine ih _ ?_
    by_cases hc : isResident st a
    · rw [if_pos hc]
      exact h.erase a
    · rwa [if_neg hc]

theorem evictFold_not_mem (l : List Nat) : ∀ (st : ResidencyState) (t : Nat),
    t ∈ l → st.resident.Nodup →
    t ∉ (l.foldl (fun acc t => if isResident acc t then makeNonResident acc t else acc)
      st).resident := by
  induction l with
  | nil => simp
  | cons a l ih =>
    intro st t ht hnd
    simp only [List.foldl_cons]
    rcases List.mem_cons.mp ht with rfl | h
    · intro hx
      have h2 := evictFold_subset l _ t hx
      by_cases hc : isResident st t
      · rw [if_pos hc] at h2
        exact absurd ((hnd.mem_erase_iff).mp h2).1 (by simp)
      · rw [if_neg hc] at h2
        simp only [isResident, decide_eq_true_eq] at hc
        exact hc h2
    · refine ih _ t h ?_
      by_cases hc : isResident st a
      · rw [if_pos hc]
        exact hnd.erase a
      · rwa [if_neg hc]

theorem evictAllRendered_subset (rendered : List RMaterial) :
    ∀ (st : ResidencyState) (x : Nat),
    x ∈ (evictAllRendered st rendered).resident → x ∈ st.resident := by
  induction rendered with
  | nil => intro st x h; simpa [evictAllRendered] using h
  | cons r rest ih =>
    intro st x h
    simp only [evictAllRendered, List.foldl_cons] at h
    exact evictFold_subset r.textures st x (ih _ x h)

theorem evictAllRendered_nodup (rendered : List RMaterial) :
    ∀ st : ResidencyState, st.resident.Nodup →
    ((evictAllRendered st rendered).resident).Nodup := by
  induction rendered with
  | nil => intro st h; simpa [evictAllRendered] using h
  | cons r rest ih =>
    intro st h
    simp only [evictAllRendered, List.foldl_cons]
    exact ih _ (evictFold_nodup r.textures st h)

theorem evictAllRendered_not_mem (rendered : List RMaterial) :
    ∀ (st : ResidencyState), st.resident.Nodup → ∀ m ∈ rendered, ∀ t ∈ m.textures,
    t ∉ (evictAllRendered st rendered).resident := by
  induction rendered with
  | nil =>
    intro st _ m hm
    cases hm
  | cons r rest ih =>
    intro st hnd m hm t ht
    simp only [evictAllRendered, List.foldl_cons]
    rcases List.mem_cons.mp hm with rfl | h
    · intro hx
      have h2 := evictAllRendered_subset rest (evictMaterialTextures st m) t hx
      exact evictFold_not_mem m.textures st t ht hnd h2
    · exact ih (evictMaterialTextures st r) (evictFold_nodup r.textures st hnd) m h t ht

/-- C7 (amended): when `RenderMaterial` fails to make a texture resident, it
evicts the textures of ALL previously-rendered Materials (in render order) —
not merely exactly enough of them — and retries; after the eviction step no
previously-rendered material's texture is resident; and the path is never
fatal: the material always comes out with `texturesResident == true`, the
failing retry only logging a warning and stopping the texture loop. -/
theorem renderMaterial_residency_evicts_all (rendered : List RMaterial)
    (st : ResidencyState) (hnd : st.resident.Nodup) :
    (∀ m ∈ rendered, ∀ t ∈ m.textures,
      isResident (evictAllRendered st rendered) t = false) ∧
    (∀ material : RMaterial,
      (renderMaterialResidency material rendered st).2.2 = true) := by
  constructor
  · intro m hm t ht
    simp only [isResident, decide_eq_false_iff_not]
    exact evictAllRendered_not_mem rendered st hnd m hm t ht
  · intro material
    unfold renderMaterialResidency
    split
    · rfl
    · rfl

/-- Closed instance of the amended C7 theorem. -/
theorem renderMaterial_residency_evicts_all_witness :
    isResident (evictAllRendered ⟨[10, 11], 2⟩ [⟨0, [10], true⟩]) 10 = false ∧
    (renderMaterialResidency ⟨5, [99], false⟩ [⟨0, [10], true⟩] ⟨[10, 11], 2⟩).2.2 = true :=
  ⟨(renderMaterial_residency_evicts_all [⟨0, [10], true⟩] ⟨[10, 11], 2⟩ (by decide)).1
      ⟨0, [10], true⟩ (by decide) 10 (by decide),
   (renderMaterial_residency_evicts_all [⟨0, [10], true⟩] ⟨[10, 11], 2⟩ (by decide)).2
      ⟨5, [99], false⟩⟩

/-! ## Material classifier: `MaterialSystem::ProcessStage`
(Material.cpp lines 1398-1486) as driven by `GenerateWorldMaterials`
(lines 1491-1580).

Embedding choices, each keyed to the source:
* Shader binders, VBO/IBO handles and cull types are opaque values compared
  for identity; they are embedded as `Nat`.
* `material.stateBits &= GLS_DEPTHFUNC_BITS | ...` (lines 1421-1424): the
  `GLS_*` bit constants live in `tr_local.h`, outside `src/`; the mask is
  the opaque constant `stateBitsMask` below — no claim depends on its value,
  only on the same mask being applied to every stage.
* The target pack index (lines 1402-1410) is a function of the surface
  shader's sort value, one shared shader per surface, so all stages of one
  surface target the same pack; the `shaderSort_t` ordinals live in
  `tr_local.h`, so the embedding carries the derived pack index (`Fin 3`)
  per surface.
* `id = packIDs[materialPack]` (line 1412): `packIDs[p]` starts at 0 and is
  incremented exactly when a material is appended to pack `p` (lines
  1459-1462, 1483), so it always equals the pack's material count; the
  embedding uses the pack length directly.
* `Material::operator==` is declared in `Material.h`, which is not under
  `src/`. Modelled from the spec: "Identity is structural: two stage
  instances with identical state bits, binder, cull type, buffers, and sync
  target collapse to the same Material", with the polygon-offset flag from
  the key description in the classifier section — `matEq` below. -/

/-- Modelled from the spec: the persisted-state mask of line 1423
(`GLS_DEPTHFUNC_BITS | GLS_SRCBLEND_BITS | GLS_DSTBLEND_BITS |
GLS_POLYMODE_LINE | GLS_DEPTHTEST_DISABLE | GLS_COLORMASK_BITS |
GLS_DEPTHMASK_TRUE`), whose bit values are defined in `tr_local.h` outside
`src/`. The claims are insensitive to the concrete value. -/
def stateBitsMask : Nat := 0xFFFFF

/-- The fields of `Material` that `ProcessStage` writes or compares. -/
structure CMaterial where
  id : Nat
  sort : Fin 3
  useSync : Bool
  syncMaterial : Nat
  stateBits : Nat
  shaderBinder : Nat
  cullType : Nat
  usePolygonOffset : Bool
  vbo : Nat
  ibo : Nat
  totalDrawSurfCount : Nat
  totalStaticDrawSurfCount : Nat
  totalDynamicDrawSurfCount : Nat
  drawSurfs : List Nat
  deriving Repr, DecidableEq

/-- The structural-identity fields of a material, as one record. -/
structure MatKeyT where
  stateBits : Nat
  shaderBinder : Nat
  cullType : Nat
  usePolygonOffset : Bool
  vbo : Nat
  ibo : Nat
  useSync : Bool
  syncMaterial : Nat
  deriving Repr, DecidableEq

/-- Projection of a material onto its structural-identity fields. -/
def matKey (m : CMaterial) : MatKeyT :=
  ⟨m.stateBits, m.shaderBinder, m.cullType, m.usePolygonOffset, m.vbo, m.ibo,
   m.useSync, m.syncMaterial⟩

/-- Modelled from the spec: `Material::operator==` (declared in `Material.h`,
absent from `src/`); structural identity over masked state bits, shader
binder, cull type, polygon-offset flag, vertex/index buffers, and the sync
target. -/
def matEq (a b : CMaterial) : Bool :=
  a.stateBits == b.stateBits && a.shaderBinder == b.shaderBinder &&
  a.cullType == b.cullType && a.usePolygonOffset == b.usePolygonOffset &&
  a.vbo == b.vbo && a.ibo == b.ibo &&
  a.useSync == b.useSync && a.syncMaterial == b.syncMaterial

/-- Per-stage classifier input: the stage's state bits (unmasked), its
shading-family binder (`pStage->shaderBinder`), and the dynamic flag
`ComputeDynamics` leaves in `pStage->dynamic` (embedded separately above;
`ProcessStage` only reads the result). -/
structure StageInput where
  stateBits : Nat
  shaderBinder : Nat
  dynamic : Bool
  deriving Repr, DecidableEq

/-- Per-surface classifier input: the surface id, the pack derived from the
shader's sort, the shader's cull type and polygon-offset flag, the current
VBO/IBO pair, and the shader's stages. -/
structure SurfaceInput where
  surfID : Nat
  pack : Fin 3
  cullType : Nat
  usePolygonOffset : Bool
  vbo : Nat
  ibo : Nat
  stages : List StageInput
  deriving Repr, DecidableEq

/-- The candidate Material built by `ProcessStage` (lines 1400-1439) before
the search: key fields from the stage and surface, sync dependency on the
previous stage's material when this is not the surface's first stage
(lines 1416-1419), zero counts. -/
def mkCandidate (surf : SurfaceInput) (st : StageInput) (stage previousMaterialID : Nat) :
    CMaterial :=
  { id := 0
    sort := surf.pack
    useSync := stage > 0
    syncMaterial := if stage > 0 then previousMaterialID else 0
    stateBits := st.stateBits &&& stateBitsMask
    shaderBinder := st.shaderBinder
    cullType := surf.cullType
    usePolygonOffset := surf.usePolygonOffset
    vbo := surf.vbo
    ibo := surf.ibo
    totalDrawSurfCount := 0
    totalStaticDrawSurfCount := 0
    totalDynamicDrawSurfCount := 0
    drawSurfs := [] }

/-- The search loop (lines 1442-1455): scan the pack for a structural match;
a match whose id precedes the sync target is skipped and the scan continues
past it; the first other match is taken; `none` when the scan exhausts the
pack. -/
def searchMaterial (cand : CMaterial) : List CMaterial → Option CMaterial
  | [] => none
  | m :: rest =>
    if matEq m cand then
      if cand.useSync && m.id < cand.syncMaterial then searchMaterial cand rest
      else some m
    else searchMaterial cand rest

/-- In-place update of one list element, as `materials[previousMaterialID]`
is updated through the reference at lines 1468-1478. -/
def modifyAt (l : List CMaterial) (i : Nat) (f : CMaterial → CMaterial) : List CMaterial :=
  match l, i with
  | [], _ => []
  | x :: xs, 0 => f x :: xs
  | x :: xs, i + 1 => x :: modifyAt xs i f

/-- The count/surface-list updates of lines 1468-1478 on the matched
material: bump the total count, the static or dynamic count according to the
stage's dynamic flag, and append the surface if not already present. -/
def bumpCounts (dynamic : Bool) (surfID : Nat) (m : CMaterial) : CMaterial :=
  let m1 := { m with totalDrawSurfCount := m.totalDrawSurfCount + 1 }
  let m2 :=
    if dynamic then
      { m1 with totalDynamicDrawSurfCount := m1.totalDynamicDrawSurfCount + 1 }
    else
      { m1 with totalStaticDrawSurfCount := m1.totalStaticDrawSurfCount + 1 }
  if surfID ∈ m2.drawSurfs then m2 else { m2 with drawSurfs := m2.drawSurfs ++ [surfID] }

/-- `ProcessStage` restricted to one pack (lines 1440-1483): search, append
when not found (with id = the pack's material count), record the assigned id
into `previousMaterialID`, and bump the assigned material's counts. Returns
the updated pack and the assigned id. -/
def processStage (surf : SurfaceInput) (st : StageInput) (stage previousMaterialID : Nat)
    (mats : List CMaterial) : List CMaterial × Nat :=
  match searchMaterial (mkCandidate surf st stage previousMaterialID) mats with
  | none =>
    (modifyAt (mats ++ [{ mkCandidate surf st stage previousMaterialID with id := mats.length }])
      mats.length (bumpCounts st.dynamic surf.surfID), mats.length)
  | some m =>
    (modifyAt mats m.id (bumpCounts st.dynamic surf.surfID), m.id)

/-- The three material packs (`materialPacks[3]`, `MaterialPack::materials`). -/
structure MatPacks where
  pack0 : List CMaterial
  pack1 : List CMaterial
  pack2 : List CMaterial
  deriving Repr, DecidableEq

def MatPacks.get (ps : MatPacks) : Fin 3 → List CMaterial
  | ⟨0, _⟩ => ps.pack0
  | ⟨1, _⟩ => ps.pack1
  | ⟨_, _⟩ => ps.pack2

def MatPacks.set (ps : MatPacks) : Fin 3 → List CMaterial → MatPacks
  | ⟨0, _⟩, l => { ps with pack0 := l }
  | ⟨1, _⟩, l => { ps with pack1 := l }
  | ⟨_, _⟩, l => { ps with pack2 := l }

/-- One classification event, recorded for each processed stage: the surface,
target pack, stage index, the value of `previousMaterialID` on entry, the
candidate built, and the material id the stage was assigned to. -/
structure TraceEntry where
  surfID : Nat
  pack : Fin 3
  stageIndex : Nat
  prevBefore : Nat
  cand : CMaterial
  assignedID : Nat
  deriving Repr, DecidableEq

/-- The stage loop of `GenerateWorldMaterials` (lines 1548-1552) for one
surface: thread the stage counter and `previousMaterialID` through
`ProcessStage` for every stage of the shader, recording a trace entry per
stage. -/
def processStages (surf : SurfaceInput) :
    List StageInput → Nat → Nat → MatPacks → MatPacks × List TraceEntry
  | [], _, _, packs => (packs, [])
  | st :: rest, stage, prev, packs =>
    let r := processStage surf st stage prev (packs.get surf.pack)
    let packs2 := packs.set surf.pack r.1
    let e : TraceEntry :=
      { surfID := surf.surfID, pack := surf.pack, stageIndex := stage,
        prevBefore := prev, cand := mkCandidate surf st stage prev, assignedID := r.2 }
    let next := processStages surf rest (stage + 1) r.2 packs2
    (next.1, e :: next.2)

/-- The surface loop of `GenerateWorldMaterials` (lines 1517-1553): each
surface starts with stage counter 0 and `previousMaterialID` 0. -/
def processSurfaces : List SurfaceInput → MatPacks → MatPacks × List TraceEntry
  | [], packs => (packs, [])
  | s :: rest, packs =>
    let r := processStages s s.stages 0 0 packs
    let next := processSurfaces rest r.1
    (next.1, r.2 ++ next.2)

/-- The empty pack state at the start of a world rebuild. -/
def emptyPacks : MatPacks := ⟨[], [], []⟩

/-! ### Lemmas about the classifier -/

theorem matEq_iff (a b : CMaterial) : matEq a b = true ↔ matKey a = matKey b := by
  simp only [matEq, matKey, Bool.and_eq_true, beq_iff_eq, MatKeyT.mk.injEq]
  tauto

theorem matEq_of_key (a b : CMaterial) (h : matKey a = matKey b) : matEq a b = true :=
  (matEq_iff a b).mpr h

theorem searchMaterial_some_mem (cand : CMaterial) (mats : List CMaterial)
    (m : CMaterial) (h : searchMaterial cand mats = some m) : m ∈ mats := by
  induction mats with
  | nil => simp [searchMaterial] at h
  | cons x rest ih =>
    unfold searchMaterial at h
    by_cases h1 : matEq x cand
    · rw [if_pos h1] at h
      by_cases h2 : cand.useSync && x.id < cand.syncMaterial
      · rw [if_pos h2] at h
        exact List.mem_cons_of_mem _ (ih h)
      · rw [if_neg h2] at h
        cases h
        exact List.mem_cons_self _ _
    · rw [if_neg h1] at h
      exact List.mem_cons_of_mem _ (ih h)

theorem searchMaterial_some_props (cand : CMaterial) (mats : List CMaterial)
    (m : CMaterial) (h : searchMaterial cand mats = some m) :
    matEq m cand = true ∧ ¬(cand.useSync = true ∧ m.id < cand.syncMaterial) := by
  induction mats with
  | nil => simp [searchMaterial] at h
  | cons x rest ih =>
    unfold searchMaterial at h
    by_cases h1 : matEq x cand
    · rw [if_pos h1] at h
      by_cases h2 : cand.useSync && x.id < cand.syncMaterial
      · rw [if_pos h2] at h
        exact ih h
      · rw [if_neg h2] at h
        cases h
        refine ⟨h1, ?_⟩
        intro hcon
        exact h2 (by simp [hcon.1, hcon.2])
    · rw [if_neg h1] at h
      exact ih h

theorem searchMaterial_none (cand : CMaterial) (mats : List CMaterial)
    (h : searchMaterial cand mats = none) :
    ∀ m ∈ mats, matEq m cand = true → cand.useSync = true ∧ m.id < cand.syncMaterial := by
  induction mats with
  | nil => simp
  | cons x rest ih =>
    unfold searchMaterial at h
    intro m hm hmeq
    by_cases h1 : matEq x cand
    · rw [if_pos h1] at h
      by_cases h2 : cand.useSync && x.id < cand.syncMaterial
      · rw [if_pos h2] at h
        rcases List.mem_cons.mp hm with rfl | hm2
        · simpa using h2
        · exact ih h m hm2 hmeq
      · rw [if_neg h2] at h
        cases h
    · rw [if_neg h1] at h
      rcases List.mem_cons.mp hm with rfl | hm2
      · exact absurd hmeq h1
      · exact ih h m hm2 hmeq

theorem modifyAt_length (l : List CMaterial) (i : Nat) (f : CMaterial → CMaterial) :
    (modifyAt l i f).length = l.length := by
  induction l generalizing i with
  | nil => rfl
  | cons x xs ih =>
    cases i with
    | zero => rfl
    | succ j => simp [modifyAt, ih]

theorem modifyAt_get_same (l : List CMaterial) (i : Nat) (f : CMaterial → CMaterial)
    (h : i < l.length) (h2 : i < (modifyAt l i f).length) :
    (modifyAt l i f).get ⟨i, h2⟩ = f (l.get ⟨i, h⟩) := by
  induction l generalizing i with
  | nil => cases h
  | cons x xs ih =>
    cases i with
    | zero => rfl
    | succ j =>
      simp only [modifyAt, List.get_cons_succ]
      exact ih j (by simpa using h) (by simpa [modifyAt_length] using h2)

theorem modifyAt_get_other (l : List CMaterial) (i j : Nat) (f : CMaterial → CMaterial)
    (hne : j ≠ i) (h : j < l.length) (h2 : j < (modifyAt l i f).length) :
    (modifyAt l i f).get ⟨j, h2⟩ = l.get ⟨j, h⟩ := by
  induction l generalizing i j with
  | nil => cases h
  | cons x xs ih =>
    cases i with
    | zero =>
      cases j with
      | zero => exact absurd rfl hne
      | succ k => rfl
    | succ i2 =>
      cases j with
      | zero => rfl
      | succ k =>
        simp only [modifyAt, List.get_cons_succ]
        exact ih i2 k (by omega) (by simpa using h) (by simpa [modifyAt_length] using h2)

theorem bumpCounts_key (dynamic : Bool) (surfID : Nat) (m : CMaterial) :
    matKey (bumpCounts dynamic surfID m) = matKey m ∧
    (bumpCounts dynamic surfID m).id = m.id := by
  unfold bumpCounts
  dsimp only
  split <;> split <;> exact ⟨rfl, rfl⟩

theorem get_append_singleton (l : List CMaterial) (x : CMaterial)
    (h : l.length < (l ++ [x]).length) : (l ++ [x]).get ⟨l.length, h⟩ = x := by
  induction l with
  | nil => rfl
  | cons y ys ih => simp [ih]

theorem get_append_left (l : List CMaterial) (x : CMaterial) (i : Nat)
    (h : i < l.length) (h2 : i < (l ++ [x]).length) :
    (l ++ [x]).get ⟨i, h2⟩ = l.get ⟨i, h⟩ := by
  induction l generalizing i with
  | nil => cases h
  | cons y ys ih =>
    cases i with
    | zero => rfl
    | succ j => simpa using ih j (by simpa using h) (by simpa using h2)

/-- Classifier pack invariant: ids equal positions, sync targets precede
their material, and no two materials of a pack are structurally equal. -/
def PackInv (mats : List CMaterial) : Prop :=
  (∀ i (h : i < mats.length), (mats.get ⟨i, h⟩).id = i) ∧
  (∀ i (h : i < mats.length), (mats.get ⟨i, h⟩).useSync = true →
    (mats.get ⟨i, h⟩).syncMaterial < i) ∧
  (∀ i j (hi : i < mats.length) (hj : j < mats.length), i ≠ j →
    matEq (mats.get ⟨i, hi⟩) (mats.get ⟨j, hj⟩) = false)

/-- A pack evolves by appending materials and bumping counts: old positions
keep their key fields and ids. -/
def StableExt (old new : List CMaterial) : Prop :=
  old.length ≤ new.length ∧
  ∀ i (h : i < old.length) (h2 : i < new.length),
    matKey (new.get ⟨i, h2⟩) = matKey (old.get ⟨i, h⟩) ∧
    (new.get ⟨i, h2⟩).id = (old.get ⟨i, h⟩).id

theorem stableExt_refl (l : List CMaterial) : StableExt l l :=
  ⟨le_rfl, fun _ _ _ => ⟨rfl, rfl⟩⟩

theorem stableExt_trans {a b c : List CMaterial} (h1 : StableExt a b)
    (h2 : StableExt b c) : StableExt a c := by
  refine ⟨le_trans h1.1 h2.1, fun i h hc => ?_⟩
  have hb : i < b.length := lt_of_lt_of_le h h1.1
  obtain ⟨k1, k2⟩ := h1.2 i h hb
  obtain ⟨k3, k4⟩ := h2.2 i hb hc
  exact ⟨k3.trans k1, k4.trans k2⟩

theorem matEq_congr {a a2 b b2 : CMaterial} (ha : matKey a = matKey a2)
    (hb : matKey b = matKey b2) : matEq a b = matEq a2 b2 := by
  cases hval : matEq a2 b2
  · cases hval2 : matEq a b
    · rfl
    · exfalso
      have h1 := (matEq_iff a b).mp hval2
      have h2 : matEq a2 b2 = true := by
        refine (matEq_iff a2 b2).mpr ?_
        rw [← ha, ← hb]
        exact h1
      rw [hval] at h2
      cases h2
  · refine (matEq_iff a b).mpr ?_
    rw [ha, hb]
    exact (matEq_iff a2 b2).mp hval

theorem matEq_symm (a b : CMaterial) : matEq a b = matEq b a := by
  cases hval : matEq b a
  · cases hval2 : matEq a b
    · rfl
    · have h1 := (matEq_iff b a).mpr ((matEq_iff a b).mp hval2).symm
      rw [hval] at h1
      cases h1
  · exact (matEq_iff a b).mpr ((matEq_iff b a).mp hval).symm

theorem key_fields_eq {a b : CMaterial} (h : matKey a = matKey b) :
    a.stateBits = b.stateBits ∧ a.shaderBinder = b.shaderBinder ∧
    a.cullType = b.cullType ∧ a.usePolygonOffset = b.usePolygonOffset ∧
    a.vbo = b.vbo ∧ a.ibo = b.ibo ∧ a.useSync = b.useSync ∧
    a.syncMaterial = b.syncMaterial := by
  simpa [matKey, MatKeyT.mk.injEq] using h

theorem mkCandidate_useSync (surf : SurfaceInput) (st : StageInput) (stage prev : Nat) :
    ((mkCandidate surf st stage prev).useSync = true) ↔ 0 < stage := by
  simp [mkCandidate]

theorem mkCandidate_sync_pos (surf : SurfaceInput) (st : StageInput) (stage prev : Nat)
    (h : 0 < stage) : (mkCandidate surf st stage prev).syncMaterial = prev := by
  simp [mkCandidate, Nat.pos_iff_ne_zero.mp h]

theorem processStage_none (surf : SurfaceInput) (st : StageInput) (stage prev : Nat)
    (mats : List CMaterial)
    (h : searchMaterial (mkCandidate surf st stage prev) mats = none) :
    processStage surf st stage prev mats =
      (modifyAt (mats ++ [{ mkCandidate surf st stage prev with id := mats.length }])
        mats.length (bumpCounts st.dynamic surf.surfID), mats.length) := by
  unfold processStage
  rw [h]

theorem processStage_some (surf : SurfaceInput) (st : StageInput) (stage prev : Nat)
    (mats : List CMaterial) (m : CMaterial)
    (h : searchMaterial (mkCandidate surf st stage prev) mats = some m) :
    processStage surf st stage prev mats =
      (modifyAt mats m.id (bumpCounts st.dynamic surf.surfID), m.id) := by
  unfold processStage
  rw [h]

theorem processStage_spec (surf : SurfaceInput) (st : StageInput) (stage prev : Nat)
    (mats : List CMaterial) (hinv : PackInv mats)
    (hprev : 0 < stage → prev < mats.length) :
    PackInv (processStage surf st stage prev mats).1 ∧
    StableExt mats (processStage surf st stage prev mats).1 ∧
    (processStage surf st stage prev mats).2 < (processStage surf st stage prev mats).1.length ∧
    ∀ h2 : (processStage surf st stage prev mats).2 <
        (processStage surf st stage prev mats).1.length,
      matKey ((processStage surf st stage prev mats).1.get
        ⟨(processStage surf st stage prev mats).2, h2⟩) =
      matKey (mkCandidate surf st stage prev) := by
  rcases hs : searchMaterial (mkCandidate surf st stage prev) mats with _ | m
  · -- not found: append a new material with id = pack length, then bump it
    rw [processStage_none surf st stage prev mats hs]
    dsimp only
    have hlen : (modifyAt (mats ++ [{ mkCandidate surf st stage prev with id := mats.length }])
        mats.length (bumpCounts st.dynamic surf.surfID)).length = mats.length + 1 := by
      rw [modifyAt_length]
      simp
    have hgetn : ∀ h2, (modifyAt (mats ++ [{ mkCandidate surf st stage prev with id := mats.length }])
        mats.length (bumpCounts st.dynamic surf.surfID)).get ⟨mats.length, h2⟩ =
        bumpCounts st.dynamic surf.surfID
          { mkCandidate surf st stage prev with id := mats.length } := by
      intro h2
      have hx : mats.length < (mats ++ [{ mkCandidate surf st stage prev with id := mats.length }]).length := by
        simp
      rw [modifyAt_get_same _ _ _ hx h2, get_append_singleton]
    have hgeti : ∀ i (hi : i < mats.length) h2,
        (modifyAt (mats ++ [{ mkCandidate surf st stage prev with id := mats.length }])
          mats.length (bumpCounts st.dynamic surf.surfID)).get ⟨i, h2⟩ =
        mats.get ⟨i, hi⟩ := by
      intro i hi h2
      have hx : i < (mats ++ [{ mkCandidate surf st stage prev with id := mats.length }]).length := by
        simp
        omega
      rw [modifyAt_get_other _ _ _ _ (by omega) hx h2, get_append_left _ _ _ hi hx]
    have hbkey : matKey (bumpCounts st.dynamic surf.surfID
        { mkCandidate surf st stage prev with id := mats.length }) =
        matKey (mkCandidate surf st stage prev) :=
      (bumpCounts_key _ _ _).1
    have hbid : (bumpCounts st.dynamic surf.surfID
        { mkCandidate surf st stage prev with id := mats.length }).id = mats.length :=
      (bumpCounts_key _ _ _).2
    have hnomatch : ∀ i (hi : i < mats.length),
        matEq (mats.get ⟨i, hi⟩) (mkCandidate surf st stage prev) = false := by
      intro i hi
      cases hval : matEq (mats.get ⟨i, hi⟩) (mkCandidate surf st stage prev)
      · rfl
      · exfalso
        obtain ⟨husk, hlt⟩ := searchMaterial_none _ _ hs _ (List.get_mem mats i hi) hval
        have hkeys := key_fields_eq ((matEq_iff _ _).mp hval)
        have hid := hinv.1 i hi
        have hsync := hinv.2.1 i hi (by rw [hkeys.2.2.2.2.2.2.1]; exact husk)
        rw [hkeys.2.2.2.2.2.2.2] at hsync
        omega
    refine ⟨⟨?_, ?_, ?_⟩, ⟨?_, ?_⟩, ?_, ?_⟩
    · intro i h
      by_cases hi : i < mats.length
      · rw [hgeti i hi]
        exact hinv.1 i hi
      · have : i = mats.length := by rw [hlen] at h; omega
        subst this
        rw [hgetn]
        exact hbid
    · intro i h husk
      by_cases hi : i < mats.length
      · rw [hgeti i hi] at husk ⊢
        exact hinv.2.1 i hi husk
      · have : i = mats.length := by rw [hlen] at h; omega
        subst this
        rw [hgetn] at husk ⊢
        have hkeys := key_fields_eq hbkey
        rw [hkeys.2.2.2.2.2.2.1] at husk
        have hstage := (mkCandidate_useSync surf st stage prev).mp husk
        rw [hkeys.2.2.2.2.2.2.2, mkCandidate_sync_pos surf st stage prev hstage]
        exact hprev hstage
    · intro i j hi hj hne
      by_cases hi2 : i < mats.length
      · by_cases hj2 : j < mats.length
        · rw [hgeti i hi2, hgeti j hj2]
          exact hinv.2.2 i j hi2 hj2 hne
        · have : j = mats.length := by rw [hlen] at hj; omega
          subst this
          rw [hgeti i hi2, hgetn]
          rw [matEq_congr (rfl : matKey (mats.get ⟨i, hi2⟩) = matKey (mats.get ⟨i, hi2⟩)) hbkey]
          exact hnomatch i hi2
      · have : i = mats.length := by rw [hlen] at hi; omega
        subst this
        have hj2 : j < mats.length := by rw [hlen] at hj; omega
        rw [hgetn, hgeti j hj2]
        rw [matEq_congr hbkey (rfl : matKey (mats.get ⟨j, hj2⟩) = matKey (mats.get ⟨j, hj2⟩))]
        rw [matEq_symm]
        exact hnomatch j hj2
    · rw [hlen]
      omega
    · intro i h h2
      rw [hgeti i h h2]
      exact ⟨rfl, rfl⟩
    · rw [hlen]
      omega
    · intro h2
      rw [hgetn]
      exact hbkey
  · -- found: bump the matched material's counts
    rw [processStage_some surf st stage prev mats m hs]
    dsimp only
    have hmem := searchMaterial_some_mem _ _ _ hs
    have props := searchMaterial_some_props _ _ _ hs
    obtain ⟨⟨k, hk⟩, hgk⟩ := List.mem_iff_get.mp hmem
    have hid : m.id = k := by
      rw [← hgk]
      exact hinv.1 k hk
    subst hid
    have hlen : (modifyAt mats m.id (bumpCounts st.dynamic surf.surfID)).length =
        mats.length := modifyAt_length _ _ _
    have hkeyAll : ∀ i (h : i < mats.length)
        (h2 : i < (modifyAt mats m.id (bumpCounts st.dynamic surf.surfID)).length),
        matKey ((modifyAt mats m.id (bumpCounts st.dynamic surf.surfID)).get ⟨i, h2⟩) =
          matKey (mats.get ⟨i, h⟩) ∧
        ((modifyAt mats m.id (bumpCounts st.dynamic surf.surfID)).get ⟨i, h2⟩).id =
          (mats.get ⟨i, h⟩).id := by
      intro i h h2
      by_cases hi : i = m.id
      · subst hi
        rw [modifyAt_get_same _ _ _ h h2]
        exact ⟨(bumpCounts_key _ _ _).1, (bumpCounts_key _ _ _).2⟩
      · rw [modifyAt_get_other _ _ _ _ hi h h2]
        exact ⟨rfl, rfl⟩
    refine ⟨⟨?_, ?_, ?_⟩, ⟨?_, ?_⟩, ?_, ?_⟩
    · intro i h
      have h3 : i < mats.length := by rwa [hlen] at h
      rw [(hkeyAll i h3 h).2]
      exact hinv.1 i h3
    · intro i h husk
      have h3 : i < mats.length := by rwa [hlen] at h
      have hkeys := key_fields_eq (hkeyAll i h3 h).1
      rw [hkeys.2.2.2.2.2.2.1] at husk
      rw [hkeys.2.2.2.2.2.2.2]
      exact hinv.2.1 i h3 husk
    · intro i j hi hj hne
      have hi3 : i < mats.length := by rwa [hlen] at hi
      have hj3 : j < mats.length := by rwa [hlen] at hj
      rw [matEq_congr (hkeyAll i hi3 hi).1 (hkeyAll j hj3 hj).1]
      exact hinv.2.2 i j hi3 hj3 hne
    · rw [hlen]
    · intro i h h2
      exact hkeyAll i h h2
    · rw [hlen]
      exact hk
    · intro h2
      have h3 : m.id < mats.length := by rwa [hlen] at h2
      have := (hkeyAll m.id h3 h2).1
      rw [this]
      have : mats.get ⟨m.id, h3⟩ = m := hgk
      rw [this]
      exact (matEq_iff _ _).mp props.1

theorem MatPacks.get_set_same (ps : MatPacks) (p : Fin 3) (l : List CMaterial) :
    (ps.set p l).get p = l := by
  fin_cases p <;> rfl

theorem MatPacks.get_set_ne (ps : MatPacks) (p q : Fin 3) (l : List CMaterial)
    (h : q ≠ p) : (ps.set p l).get q = ps.get q := by
  fin_cases p <;> fin_cases q <;> first | rfl | exact absurd rfl h

/-- Classifier invariant over the three packs. -/
def PacksInv (ps : MatPacks) : Prop := ∀ p : Fin 3, PackInv (ps.get p)

/-- Stable evolution of all three packs. -/
def PacksStable (a b : MatPacks) : Prop := ∀ p : Fin 3, StableExt (a.get p) (b.get p)

theorem packsStable_refl (ps : MatPacks) : PacksStable ps ps :=
  fun _ => stableExt_refl _

theorem packsStable_trans {a b c : MatPacks} (h1 : PacksStable a b)
    (h2 : PacksStable b c) : PacksStable a c :=
  fun p => stableExt_trans (h1 p) (h2 p)

/-- A trace entry is settled in the final packs: the material at its assigned
index carries the candidate's structural key and the assigned id. -/
def EntryOk (final : MatPacks) (e : TraceEntry) : Prop :=
  ∃ h : e.assignedID < (final.get e.pack).length,
    matKey ((final.get e.pack).get ⟨e.assignedID, h⟩) = matKey e.cand ∧
    ((final.get e.pack).get ⟨e.assignedID, h⟩).id = e.assignedID

theorem EntryOk.mono {a b : MatPacks} (hst : PacksStable a b) {e : TraceEntry}
    (h : EntryOk a e) : EntryOk b e := by
  obtain ⟨hlt, hkey, hid⟩ := h
  have hlt2 : e.assignedID < (b.get e.pack).length := lt_of_lt_of_le hlt (hst e.pack).1
  obtain ⟨k1, k2⟩ := (hst e.pack).2 e.assignedID hlt hlt2
  exact ⟨hlt2, k1.trans hkey, k2.trans hid⟩

/-- The candidate recorded in a trace entry carries the sync data derived
from the entry's stage index and incoming `previousMaterialID`. -/
def CandOk (e : TraceEntry) : Prop :=
  (e.cand.useSync = true ↔ 0 < e.stageIndex) ∧
  (0 < e.stageIndex → e.cand.syncMaterial = e.prevBefore)

/-- The ordering-dependency relation along the trace: an entry processed as
the next stage of the same surface records the previous entry's assigned
material as its incoming `previousMaterialID`. -/
def TraceR (a b : TraceEntry) : Prop :=
  b.stageIndex = a.stageIndex + 1 → b.prevBefore = a.assignedID

theorem entryOk_of_get_eq {final : MatPacks} {e : TraceEntry} {l : List CMaterial}
    (hgl : final.get e.pack = l) (h : e.assignedID < l.length)
    (hkey : matKey (l.get ⟨e.assignedID, h⟩) = matKey e.cand)
    (hid : (l.get ⟨e.assignedID, h⟩).id = e.assignedID) : EntryOk final e := by
  subst hgl
  exact ⟨h, hkey, hid⟩

theorem processStages_spec (surf : SurfaceInput) :
    ∀ (sts : List StageInput) (stage prev : Nat) (packs : MatPacks),
    PacksInv packs → (0 < stage → prev < (packs.get surf.pack).length) →
    PacksInv (processStages surf sts stage prev packs).1 ∧
    PacksStable packs (processStages surf sts stage prev packs).1 ∧
    (∀ e ∈ (processStages surf sts stage prev packs).2,
      EntryOk (processStages surf sts stage prev packs).1 e ∧ CandOk e) ∧
    List.Chain' TraceR (processStages surf sts stage prev packs).2 ∧
    (∀ y ∈ (processStages surf sts stage prev packs).2.head?,
      y.stageIndex = stage ∧ y.prevBefore = prev) := by
  intro sts
  induction sts with
  | nil =>
    intro stage prev packs hinv hprev
    refine ⟨hinv, packsStable_refl packs, ?_, ?_, ?_⟩ <;> simp [processStages]
  | cons st rest ih =>
    intro stage prev packs hinv hprev
    have spec := processStage_spec surf st stage prev (packs.get surf.pack)
      (hinv surf.pack) hprev
    have hinv2 : PacksInv (packs.set surf.pack
        (processStage surf st stage prev (packs.get surf.pack)).1) := by
      intro p
      by_cases hp : p = surf.pack
      · subst hp
        rw [MatPacks.get_set_same]
        exact spec.1
      · rw [MatPacks.get_set_ne _ _ _ _ hp]
        exact hinv p
    have hstab12 : PacksStable packs (packs.set surf.pack
        (processStage surf st stage prev (packs.get surf.pack)).1) := by
      intro p
      by_cases hp : p = surf.pack
      · subst hp
        rw [MatPacks.get_set_same]
        exact spec.2.1
      · rw [MatPacks.get_set_ne _ _ _ _ hp]
        exact stableExt_refl _
    have hprev2 : 0 < stage + 1 →
        (processStage surf st stage prev (packs.get surf.pack)).2 <
        ((packs.set surf.pack (processStage surf st stage prev (packs.get surf.pack)).1).get
          surf.pack).length := by
      intro _
      rw [MatPacks.get_set_same]
      exact spec.2.2.1
    have ihr := ih (stage + 1) (processStage surf st stage prev (packs.get surf.pack)).2
      (packs.set surf.pack (processStage surf st stage prev (packs.get surf.pack)).1)
      hinv2 hprev2
    refine ⟨ihr.1, packsStable_trans hstab12 ihr.2.1, ?_, ?_, ?_⟩
    · intro e he
      simp only [processStages, List.mem_cons] at he
      rcases he with rfl | he2
      · constructor
        · refine EntryOk.mono ihr.2.1 ?_
          exact entryOk_of_get_eq (MatPacks.get_set_same packs surf.pack _)
            spec.2.2.1 (spec.2.2.2 spec.2.2.1) ((spec.1).1 _ spec.2.2.1)
        · constructor
          · exact mkCandidate_useSync surf st stage prev
          · intro h
            exact mkCandidate_sync_pos surf st stage prev h
      · exact ihr.2.2.1 e he2
    · simp only [processStages]
      rw [List.chain'_cons']
      constructor
      · intro y hy
        unfold TraceR
        intro _
        exact (ihr.2.2.2.2 y hy).2
      · exact ihr.2.2.2.1
    · intro y hy
      simp only [processStages, List.head?_cons, Option.mem_def, Option.some.injEq] at hy
      subst hy
      exact ⟨rfl, rfl⟩

theorem processSurfaces_spec :
    ∀ (surfs : List SurfaceInput) (packs : MatPacks), PacksInv packs →
    PacksInv (processSurfaces surfs packs).1 ∧
    PacksStable packs (processSurfaces surfs packs).1 ∧
    (∀ e ∈ (processSurfaces surfs packs).2,
      EntryOk (processSurfaces surfs packs).1 e ∧ CandOk e) ∧
    List.Chain' TraceR (processSurfaces surfs packs).2 ∧
    (∀ y ∈ (processSurfaces surfs packs).2.head?, y.stageIndex = 0) := by
  intro surfs
  induction surfs with
  | nil =>
    intro packs hinv
    refine ⟨hinv, packsStable_refl packs, ?_, ?_, ?_⟩ <;> simp [processSurfaces]
  | cons s rest ih =>
    intro packs hinv
    have spec1 := processStages_spec s s.stages 0 0 packs hinv (fun h => absurd h (by omega))
    have spec2 := ih (processStages s s.stages 0 0 packs).1 spec1.1
    refine ⟨spec2.1, packsStable_trans spec1.2.1 spec2.2.1, ?_, ?_, ?_⟩
    · intro e he
      simp only [processSurfaces, List.mem_append] at he
      rcases he with he1 | he2
      · exact ⟨((spec1.2.2.1 e he1).1).mono spec2.2.1, (spec1.2.2.1 e he1).2⟩
      · exact spec2.2.2.1 e he2
    · simp only [processSurfaces]
      rw [List.chain'_append]
      refine ⟨spec1.2.2.2.1, spec2.2.2.2.1, ?_⟩
      intro x hx y hy
      unfold TraceR
      intro hcon
      exfalso
      have h0 := spec2.2.2.2.2 y hy
      omega
    · intro y hy
      simp only [processSurfaces] at hy
      rcases hx : (processStages s s.stages 0 0 packs).2 with _ | ⟨z, zs⟩
      · rw [hx] at hy
        simp only [List.nil_append] at hy
        exact spec2.2.2.2.2 y hy
      · rw [hx] at hy
        simp only [List.cons_append, List.head?_cons, Option.mem_def, Option.some.injEq] at hy
        subst hy
        have hz := spec1.2.2.2.2 z (by rw [hx]; rfl)
        exact hz.1

theorem PackInv_nil : PackInv ([] : List CMaterial) := by
  refine ⟨?_, ?_, ?_⟩
  · intro i h
    simp at h
  · intro i h
    simp at h
  · intro i j hi hj
    simp at hi

theorem emptyPacks_inv : PacksInv emptyPacks := by
  intro p
  fin_cases p <;> exact PackInv_nil

theorem assigned_unique (final : MatPacks) (hinvf : PacksInv final)
    (e1 e2 : TraceEntry) (h1 : EntryOk final e1) (h2 : EntryOk final e2)
    (hp : e1.pack = e2.pack) (hk : matKey e1.cand = matKey e2.cand) :
    e1.assignedID = e2.assignedID := by
  obtain ⟨hl1, k1, id1⟩ := h1
  obtain ⟨hl2, k2, id2⟩ := h2
  have hget : final.get e2.pack = final.get e1.pack := by rw [hp]
  have hl2b : e2.assignedID < (final.get e1.pack).length := by
    rw [← hget]
    exact hl2
  have k2b : matKey ((final.get e1.pack).get ⟨e2.assignedID, hl2b⟩) = matKey e2.cand := by
    rw [← List.get_of_eq hget ⟨e2.assignedID, hl2⟩]
    exact k2
  by_contra hne
  have hfalse := (hinvf e1.pack).2.2 e1.assignedID e2.assignedID hl1 hl2b hne
  have htrue : matEq ((final.get e1.pack).get ⟨e1.assignedID, hl1⟩)
      ((final.get e1.pack).get ⟨e2.assignedID, hl2b⟩) = true :=
    matEq_of_key _ _ (by rw [k1, k2b, hk])
  rw [hfalse] at htrue
  cases htrue

/-- C1: over any classifier run of `GenerateWorldMaterials`: (1) two stages
whose candidate keys — masked state bits, shader binder, cull type,
polygon-offset flag, vertex/index buffers, and sync target — are identical
are assigned to exactly one Material of the target pack; (2) every stage
after a surface's first is assigned a Material recording `useSync == true`
and `syncMaterial` equal to the incoming `previousMaterialID`, which along
the trace is exactly the Material id assigned to the surface's previous
stage (the `List.Chain'` conjunct); (3) the search takes the first
structural match, skipping any match whose id precedes the sync target, and
a material is appended (search misses) only when every structural match in
the pack is such a skipped one. -/
theorem processStage_classification (surfs : List SurfaceInput) :
    (∀ e1 ∈ (processSurfaces surfs emptyPacks).2,
      ∀ e2 ∈ (processSurfaces surfs emptyPacks).2,
      e1.pack = e2.pack → matKey e1.cand = matKey e2.cand →
      e1.assignedID = e2.assignedID) ∧
    (∀ e ∈ (processSurfaces surfs emptyPacks).2, 0 < e.stageIndex →
      ∃ h : e.assignedID < ((processSurfaces surfs emptyPacks).1.get e.pack).length,
        (((processSurfaces surfs emptyPacks).1.get e.pack).get
          ⟨e.assignedID, h⟩).useSync = true ∧
        (((processSurfaces surfs emptyPacks).1.get e.pack).get
          ⟨e.assignedID, h⟩).syncMaterial = e.prevBefore) ∧
    List.Chain' TraceR (processSurfaces surfs emptyPacks).2 ∧
    (∀ (cand m : CMaterial) (mats : List CMaterial),
      searchMaterial cand mats = some m →
      matEq m cand = true ∧ ¬(cand.useSync = true ∧ m.id < cand.syncMaterial)) ∧
    (∀ (cand : CMaterial) (mats : List CMaterial), searchMaterial cand mats = none →
      ∀ m ∈ mats, matEq m cand = true →
      cand.useSync = true ∧ m.id < cand.syncMaterial) := by
  have spec := processSurfaces_spec surfs emptyPacks emptyPacks_inv
  refine ⟨?_, ?_, spec.2.2.2.1, ?_, ?_⟩
  · intro e1 he1 e2 he2 hp hk
    exact assigned_unique _ spec.1 e1 e2 (spec.2.2.1 e1 he1).1 (spec.2.2.1 e2 he2).1 hp hk
  · intro e he hst
    obtain ⟨hl, hkey, hid⟩ := (spec.2.2.1 e he).1
    have candok := (spec.2.2.1 e he).2
    have hfields := key_fields_eq hkey
    refine ⟨hl, ?_, ?_⟩
    · rw [hfields.2.2.2.2.2.2.1]
      exact candok.1.mpr hst
    · rw [hfields.2.2.2.2.2.2.2]
      exact candok.2 hst
  · intro cand m mats h
    exact searchMaterial_some_props cand mats m h
  · intro cand mats h
    exact searchMaterial_none cand mats h

/-- Concrete two-surface run used as the C1 witness: two surfaces with the
same shader layout (a plain stage followed by a blended stage), distinct
surface ids. -/
def c1SurfA : SurfaceInput := ⟨3, 1, 0, false, 7, 8, [⟨3, 10, false⟩, ⟨5, 11, true⟩]⟩

/-- Second surface of the C1 witness run. -/
def c1SurfB : SurfaceInput := ⟨4, 1, 0, false, 7, 8, [⟨3, 10, false⟩, ⟨5, 11, true⟩]⟩

/-- Closed instance of the C1 theorem on the two-surface run: the two
first-stage entries with identical keys share Material 0, and the second
stage's Material records the sync dependency on Material 0. -/
theorem processStage_classification_witness :
    (⟨3, 1, 0, 0, mkCandidate c1SurfA ⟨3, 10, false⟩ 0 0, 0⟩ : TraceEntry).assignedID =
      (⟨4, 1, 0, 0, mkCandidate c1SurfB ⟨3, 10, false⟩ 0 0, 0⟩ : TraceEntry).assignedID ∧
    ∃ h : (1 : Nat) <
        ((processSurfaces [c1SurfA, c1SurfB] emptyPacks).1.get (1 : Fin 3)).length,
      (((processSurfaces [c1SurfA, c1SurfB] emptyPacks).1.get (1 : Fin 3)).get
        ⟨1, h⟩).useSync = true ∧
      (((processSurfaces [c1SurfA, c1SurfB] emptyPacks).1.get (1 : Fin 3)).get
        ⟨1, h⟩).syncMaterial = 0 :=
  ⟨(processStage_classification [c1SurfA, c1SurfB]).1
      ⟨3, 1, 0, 0, mkCandidate c1SurfA ⟨3, 10, false⟩ 0 0, 0⟩ (by decide)
      ⟨4, 1, 0, 0, mkCandidate c1SurfB ⟨3, 10, false⟩ 0 0, 0⟩ (by decide)
      (by decide) (by decide),
   (processStage_classification [c1SurfA, c1SurfB]).2.1
      ⟨3, 1, 1, 0, mkCandidate c1SurfA ⟨5, 11, true⟩ 1 0, 1⟩ (by decide) (by decide)⟩

/-! ## Portal resolver: `MaterialSystem::AddPortalSurface` /
`AddPortalSurfaces` (Material.cpp lines 1954-2037).

Embedding notes, keyed to the source:
* `portalSurfs + viewID * totalPortals` is the per-view slice of the portal
  readback; the embedding carries it as `portalSurfs : Nat → List
  PortalSurfaceM` (one list of `totalPortals` entries per view id).
* `std::sort` with the `lhs.distance < rhs.distance` comparator
  (lines 1963-1966) leaves the order of equal keys unspecified; insertion
  sort below is one refinement of it, and no property proved here depends on
  the tie order.
* `PortalOffScreenOrOutOfRange` (line 1977) reads screen-space data outside
  this translation unit; it enters as the oracle `offScreen`, keyed by the
  portal's `drawSurfID`.
* `frames[currentFrame]` is the previous frame's (read-only) topology:
  `prev v` gives its `viewCount`, `portalViews` and `portalSurfaceID`.
* The state tracks the member `viewCount` and, as `assigned`, the sequence
  of portal view ids handed out (the writes of lines 1988-1997); the claims
  are about exactly these writes, the return value, and termination.
* The recursion is embedded with explicit fuel (`none` = fuel exhausted);
  the termination theorem shows fuel `MAX_VIEWS` is never exhausted from the
  entry state, which is the no-infinite-recursion claim. -/

structure PortalSurfaceM where
  distance : Int
  drawSurfID : Nat
  deriving Repr, DecidableEq

structure PrevView where
  viewCount : Nat
  portalViews : List Nat
  portalSurfaceID : Nat
  deriving Repr, DecidableEq

structure PState where
  viewCount : Nat
  assigned : List Nat
  deriving Repr, DecidableEq

def insertByDistance (p : PortalSurfaceM) : List PortalSurfaceM → List PortalSurfaceM
  | [] => [p]
  | q :: rest =>
    if p.distance < q.distance then p :: q :: rest else q :: insertByDistance p rest

/-- Insertion sort by ascending distance, modelling the `std::sort` call of
lines 1963-1966. -/
def sortByDistance : List PortalSurfaceM → List PortalSurfaceM
  | [] => []
  | p :: rest => insertByDistance p (sortByDistance rest)

/-- The inner `j` loop (lines 2003-2013): the first listed sub-view of the
previous frame's view `viewID` that is nonzero and whose recorded portal
surface is this portal's `drawSurfID`. -/
def findSubView (prev : Nat → PrevView) (viewID drawSurfID : Nat) : Option Nat :=
  ((prev viewID).portalViews.take (prev viewID).viewCount).find?
    (fun subView => subView != 0 && (prev subView).portalSurfaceID == drawSurfID)

/-- The portal loop of `AddPortalSurface` (lines 1968-2014): skip culled
(distance −1), off-screen, and id-capped (`portalViewID == MAX_VIEWS`)
portals; otherwise assign the next view id, return `false` when `count` or
`viewCount` reach `MAX_VIEWS` (lines 1999-2001), and recurse into the
previous frame's matching sub-view when one exists. The recursive call to
`AddPortalSurface` enters as the parameter `recur`, instantiated below with
the one-less-fuel resolver so that the whole definition is structural. -/
def portalLoop (maxViews : Nat) (prev : Nat → PrevView) (offScreen : Nat → Bool)
    (recur : Nat → PState → Option (Bool × PState)) (viewID : Nat) :
    List PortalSurfaceM → Nat → PState → Option (Bool × PState)
  | [], _, st => some (true, st)
  | p :: rest, count, st =>
    if p.distance = -1 then
      portalLoop maxViews prev offScreen recur viewID rest count st
    else if offScreen p.drawSurfID then
      portalLoop maxViews prev offScreen recur viewID rest count st
    else if st.viewCount + 1 = maxViews then
      portalLoop maxViews prev offScreen recur viewID rest count st
    else
      if count + 1 = maxViews ∨ st.viewCount + 1 = maxViews then
        some (false, ⟨st.viewCount + 1, st.assigned ++ [st.viewCount + 1]⟩)
      else
        match findSubView prev viewID p.drawSurfID with
        | some subView =>
          match recur subView ⟨st.viewCount + 1, st.assigned ++ [st.viewCount + 1]⟩ with
          | none => none
          | some (false, st3) => some (false, st3)
          | some (true, st3) =>
            portalLoop maxViews prev offScreen recur viewID rest (count + 1) st3
        | none =>
          portalLoop maxViews prev offScreen recur viewID rest (count + 1)
            ⟨st.viewCount + 1, st.assigned ++ [st.viewCount + 1]⟩

/-- `AddPortalSurface` (lines 1954-2019) with fuel: sort the view's portal
slice by distance, then walk it; nested recursion goes through `portalLoop`
with one unit of fuel less. -/
def addPortalSurfaceFuel (maxViews : Nat) (prev : Nat → PrevView)
    (offScreen : Nat → Bool) (portalSurfs : Nat → List PortalSurfaceM) :
    Nat → Nat → PState → Option (Bool × PState)
  | 0, _, _ => none
  | fuel + 1, viewID, st =>
    portalLoop maxViews prev offScreen
      (addPortalSurfaceFuel maxViews prev offScreen portalSurfs fuel) viewID
      (sortByDistance (portalSurfs viewID)) 0 st

/-- `AddPortalSurfaces` (lines 2021-2037): reset `viewCount` to 0 and run
the resolver from the root view; fuel `maxViews` suffices (termination
theorem below). The `totalPortals == 0` and `r_lockpvs` early-outs do not
reach `AddPortalSurface` and are omitted. -/
def addPortalSurfaces (maxViews : Nat) (prev : Nat → PrevView)
    (offScreen : Nat → Bool) (portalSurfs : Nat → List PortalSurfaceM) :
    Option (Bool × PState) :=
  addPortalSurfaceFuel maxViews prev offScreen portalSurfs maxViews 0 ⟨0, []⟩

theorem mem_of_getLast_opt {l : List Nat} {x : Nat} (h : x ∈ l.getLast?) : x ∈ l := by
  obtain ⟨hne, rfl⟩ := List.mem_getLast?_eq_getLast h
  exact List.getLast_mem hne

/-- Portal-state invariant: the view counter stays below `MAX_VIEWS`, the
assigned ids are strictly increasing, and every assigned id is a positive
number not exceeding the counter. -/
def PStInv (maxViews : Nat) (st : PState) : Prop :=
  st.viewCount < maxViews ∧
  List.Chain' (fun a b => a < b) st.assigned ∧
  ∀ x ∈ st.assigned, 0 < x ∧ x ≤ st.viewCount

theorem chain_append_succ (l : List Nat) (v : Nat)
    (hc : List.Chain' (fun a b => a < b) l) (hb : ∀ x ∈ l, x ≤ v) :
    List.Chain' (fun a b => a < b) (l ++ [v + 1]) := by
  rw [List.chain'_append]
  refine ⟨hc, List.chain'_singleton _, ?_⟩
  intro x hx y hy
  simp only [List.head?_cons, Option.mem_def, Option.some.injEq] at hy
  subst hy
  have := hb x (mem_of_getLast_opt hx)
  omega

theorem portalLoop_spec_of (maxViews : Nat) (prev : Nat → PrevView)
    (offScreen : Nat → Bool) (recur : Nat → PState → Option (Bool × PState)) (fuel : Nat)
    (hA : ∀ (viewID : Nat) (st : PState), PStInv maxViews st →
      maxViews - st.viewCount ≤ fuel →
      ∃ st2, recur viewID st =
          some (true, st2) ∧ PStInv maxViews st2 ∧ st.viewCount ≤ st2.viewCount ∧
          ∃ ext, st2.assigned = st.assigned ++ ext) :
    ∀ (viewID : Nat) (l : List PortalSurfaceM) (count : Nat) (st : PState),
      PStInv maxViews st → maxViews - st.viewCount ≤ fuel + 1 → count ≤ st.viewCount →
      ∃ st2, portalLoop maxViews prev offScreen recur viewID l count st =
          some (true, st2) ∧ PStInv maxViews st2 ∧ st.viewCount ≤ st2.viewCount ∧
          ∃ ext, st2.assigned = st.assigned ++ ext := by
  intro viewID l
  induction l with
  | nil =>
    intro count st hinv hb hc
    unfold portalLoop
    exact ⟨st, rfl, hinv, le_rfl, [], by simp⟩
  | cons p rest ihl =>
    intro count st hinv hb hc
    unfold portalLoop
    by_cases h1 : p.distance = -1
    · rw [if_pos h1]
      exact ihl count st hinv hb hc
    · rw [if_neg h1]
      by_cases h2 : offScreen p.drawSurfID = true
      · rw [if_pos h2]
        exact ihl count st hinv hb hc
      · rw [if_neg h2]
        by_cases h3 : st.viewCount + 1 = maxViews
        · rw [if_pos h3]
          exact ihl count st hinv hb hc
        · rw [if_neg h3]
          have hvc := hinv.1
          have hlt : st.viewCount + 1 < maxViews := by omega
          have hguard : ¬(count + 1 = maxViews ∨ st.viewCount + 1 = maxViews) := by
            omega
          rw [if_neg hguard]
          have hinv2 : PStInv maxViews
              ⟨st.viewCount + 1, st.assigned ++ [st.viewCount + 1]⟩ := by
            refine ⟨hlt, ?_, ?_⟩
            · exact chain_append_succ _ _ hinv.2.1 (fun x hx => (hinv.2.2 x hx).2)
            · intro x hx
              rcases List.mem_append.mp hx with hx1 | hx2
              · have := hinv.2.2 x hx1
                dsimp only
                omega
              · simp only [List.mem_singleton] at hx2
                dsimp only
                omega
          cases hfs : findSubView prev viewID p.drawSurfID with
          | none =>
            obtain ⟨st2, heq, hinv3, hmono, ext, hext⟩ :=
              ihl (count + 1) ⟨st.viewCount + 1, st.assigned ++ [st.viewCount + 1]⟩
                hinv2 (by dsimp only; omega) (by dsimp only; omega)
            refine ⟨st2, heq, hinv3, ?_, ?_⟩
            · dsimp only at hmono
              omega
            · refine ⟨(st.viewCount + 1) :: ext, ?_⟩
              rw [hext]
              simp
          | some subView =>
            obtain ⟨st3, heq3, hinv3, hmono3, ext3, hext3⟩ :=
              hA subView ⟨st.viewCount + 1, st.assigned ++ [st.viewCount + 1]⟩
                hinv2 (by dsimp only; omega)
            dsimp only
            rw [heq3]
            dsimp only at hmono3 hext3
            obtain ⟨st4, heq4, hinv4, hmono4, ext4, hext4⟩ :=
              ihl (count + 1) st3 hinv3 (by omega) (by omega)
            refine ⟨st4, heq4, hinv4, by omega, ?_⟩
            refine ⟨(st.viewCount + 1) :: (ext3 ++ ext4), ?_⟩
            rw [hext4, hext3]
            simp

theorem addPortalSurfaceFuel_spec (maxViews : Nat) (prev : Nat → PrevView)
    (offScreen : Nat → Bool) (portalSurfs : Nat → List PortalSurfaceM) :
    ∀ (fuel viewID : Nat) (st : PState), PStInv maxViews st →
      maxViews - st.viewCount ≤ fuel →
      ∃ st2, addPortalSurfaceFuel maxViews prev offScreen portalSurfs fuel viewID st =
          some (true, st2) ∧ PStInv maxViews st2 ∧ st.viewCount ≤ st2.viewCount ∧
          ∃ ext, st2.assigned = st.assigned ++ ext := by
  intro fuel
  induction fuel with
  | zero =>
    intro viewID st hinv hb
    exfalso
    have := hinv.1
    omega
  | succ f ihf =>
    intro viewID st hinv hb
    have key := portalLoop_spec_of maxViews prev offScreen
      (addPortalSurfaceFuel maxViews prev offScreen portalSurfs f) f ihf viewID
      (sortByDistance (portalSurfs viewID)) 0 st hinv hb (Nat.zero_le _)
    simpa [addPortalSurfaceFuel] using key

/-- Previous-frame topology with a portal cycle: the root view lists
sub-view 1, and view 1 lists itself as its own sub-view for portal surface
1 — a fully cyclic portal graph. -/
def c5Prev : Nat → PrevView := fun v =>
  if v = 0 then ⟨1, [1], 5⟩ else if v = 1 then ⟨1, [1], 1⟩ else ⟨0, [], 0⟩

/-- Two unculled on-screen portals visible from every view. -/
def c5Surfs : Nat → List PortalSurfaceM := fun _ => [⟨1, 1⟩, ⟨2, 2⟩]

/-- No previous-frame sub-views at all. -/
def c5aPrev : Nat → PrevView := fun _ => ⟨0, [], 0⟩

/-- Four unculled portals visible from the root view — more than `MAX_VIEWS`
can hold. -/
def c5aSurfs : Nat → List PortalSurfaceM := fun v =>
  if v = 0 then [⟨1, 1⟩, ⟨2, 2⟩, ⟨3, 3⟩, ⟨4, 4⟩] else []

/-- Never off-screen. -/
def c5OnScreen : Nat → Bool := fun _ => false

/-- C5 counterexample: with `MAX_VIEWS = 3` and four unculled on-screen
portals, the resolver assigns view ids 1 and 2 and then skips every further
portal (`portalViewID == MAX_VIEWS` at line 1984), so the view set is
saturated (root view plus `MAX_VIEWS - 1` portal views) — yet the function
returns `true`, never `false`: the guard at lines 1999-2001 that the claim
describes is unreachable from the entry state of `AddPortalSurfaces`. -/
theorem addPortalSurface_never_false_counterexample :
    addPortalSurfaces 3 c5aPrev c5OnScreen c5aSurfs =
      some (true, ⟨2, [1, 2]⟩) ∧
    ¬∃ st : PState, addPortalSurfaces 3 c5aPrev c5OnScreen c5aSurfs =
      some (false, st) := by
  have h1 : addPortalSurfaces 3 c5aPrev c5OnScreen c5aSurfs =
      some (true, ⟨2, [1, 2]⟩) := by decide
  refine ⟨h1, ?_⟩
  rintro ⟨st, h2⟩
  rw [h1] at h2
  simp at h2

/-- C5 (amended): from the `AddPortalSurfaces` entry state (`viewCount` reset
to 0), for every portal distance input and previous-frame topology (cyclic
ones included): the recursion terminates — fuel `MAX_VIEWS` is never
exhausted; no view id is ever assigned twice in one frame; every assigned id
lies in `[1, MAX_VIEWS - 1]`, so the resolver stops assigning at the cap
(at most `MAX_VIEWS` views counting the root); and it returns `true` — the
`false` return of lines 1999-2001 is unreachable from the entry state, so
the caller is never told failure. -/
theorem addPortalSurfaces_spec (maxViews : Nat) (hm : 0 < maxViews)
    (prev : Nat → PrevView) (offScreen : Nat → Bool)
    (portalSurfs : Nat → List PortalSurfaceM) :
    ∃ st : PState,
      addPortalSurfaces maxViews prev offScreen portalSurfs = some (true, st) ∧
      st.assigned.Nodup ∧
      (∀ x ∈ st.assigned, 0 < x ∧ x < maxViews) ∧
      st.viewCount < maxViews := by
  obtain ⟨st, heq, hinv, hmono, ext, hext⟩ :=
    addPortalSurfaceFuel_spec maxViews prev offScreen portalSurfs maxViews 0 ⟨0, []⟩
      ⟨hm, List.chain'_nil, by simp⟩ (by omega)
  refine ⟨st, heq, ?_, ?_, hinv.1⟩
  · have hp : st.assigned.Pairwise (fun a b => a < b) :=
      List.chain'_iff_pairwise.mp hinv.2.1
    exact List.Pairwise.imp (fun h => Nat.ne_of_lt h) hp
  · intro x hx
    have h1 := hinv.2.2 x hx
    have h2 := hinv.1
    omega

/-- Closed instance of the amended C5 theorem on the cyclic topology. -/
theorem addPortalSurfaces_spec_witness :
    (0 : Nat) < 5 ∧
    ∃ st : PState,
      addPortalSurfaces 5 c5Prev c5OnScreen c5Surfs = some (true, st) ∧
      st.assigned.Nodup ∧
      (∀ x ∈ st.assigned, 0 < x ∧ x < 5) ∧
      st.viewCount < 5 :=
  ⟨by decide, addPortalSurfaces_spec 5 (by decide) c5Prev c5OnScreen c5Surfs⟩

/-! ## Buffer fill and per-frame dynamic update:
`GenerateWorldMaterialsBuffer` fill loop (Material.cpp lines 696-763) and
`UpdateDynamicSurfaces` (lines 1623-1643).

Embedding notes, keyed to the source:
* A surface's shader stages are shared data (`drawSurf->shader->stages`);
  `surfs : Nat → List FStage` maps a surface id to them. Per stage the fill
  loop reads the dynamic flag and the assigned material; the pack/material
  id pair `(materialPackIDs[stage], materialIDs[stage])` is embedded as the
  single index `material` into the pack-order-concatenated material list
  (packs only partition that list; the pair and the flattened index are in
  bijection and the fill loop visits materials exactly in flattened order).
* The per-surface mutable fields `materialsSSBOOffset[stage]` and
  `initialized[stage]` form `FStageState`; the mutable store is a function
  from surface id to the per-stage state list. Nothing in `src/` initializes
  these fields before the fill loop; the pre-build values are modelled as
  zero / false.
* For a dynamic stage the loop stores `(SSBOOffset + n*padded)/padded`
  (line 721) and immediately after the updater call rebases it to
  `(SSBOOffset - dynamicDrawSurfsOffset + n*padded)/padded` (lines 745-748);
  the store keeps the rebased value, which is what survives the build.
* `dynamicDrawSurfs.emplace_back(*drawSurf)` (line 757) snapshots the
  surface's state at that moment; `copies` collects these snapshots.
* `UpdateDynamicSurfaces` maps `[dynamicDrawSurfsOffset,
  dynamicDrawSurfsOffset + dynamicDrawSurfsSize)` and passes the mapping
  base to the stage updaters, so every write lands at
  `dynamicDrawSurfsOffset + materialsSSBOOffset[stage] * paddedSize` and
  covers one padded-stride window; the updater's guard is
  `!initialized || colorDynamic || texMatricesDynamic || dynamic`
  (e.g. line 210), and `ComputeDynamics` folds the three flags into
  `dynamic` (line 190), so the guard is `!initialized || dynamic` here.
  The `memset` of the whole mapped range (line 1631) is the first write. -/

structure FStage where
  dynamic : Bool
  material : Nat
  deriving Repr, DecidableEq

structure FStageState where
  materialsSSBOOffset : Nat
  initialized : Bool
  deriving Repr, DecidableEq

structure FMaterial where
  lm : LMaterial
  drawSurfs : List Nat
  deriving Repr, DecidableEq

/-- One material's pass over one surface's stage list (the stage loop at
lines 702-751, restricted to material `mIdx`): assign the next static or
dynamic instance slot to each stage belonging to this material, mark it
initialized, and report whether any processed stage was dynamic. Walks the
stage list and the state list in step. -/
def fillStages (p soff doff dynStart mIdx : Nat) :
    List FStage → List FStageState → Nat → Nat →
    List FStageState × Nat × Nat × Bool
  | [], _, cs, cd => ([], cs, cd, false)
  | _ :: _, [], cs, cd => ([], cs, cd, false)
  | stg :: stgs, stSt :: stSts, cs, cd =>
    if stg.material = mIdx then
      if stg.dynamic then
        let r := fillStages p soff doff dynStart mIdx stgs stSts cs (cd + 1)
        (⟨(doff - dynStart + cd * p) / p, true⟩ :: r.1, r.2.1, r.2.2.1, true)
      else
        let r := fillStages p soff doff dynStart mIdx stgs stSts (cs + 1) cd
        (⟨(soff + cs * p) / p, true⟩ :: r.1, r.2.1, r.2.2.1, r.2.2.2)
    else
      let r := fillStages p soff doff dynStart mIdx stgs stSts cs cd
      (stSt :: r.1, r.2.1, r.2.2.1, r.2.2.2)

/-- One material's loop over its `drawSurfs` (lines 699-759): run the stage
pass for each listed surface, write the surface's new state back into the
store, and snapshot the surface into `dynamicDrawSurfs` when it had a
dynamic stage under this material. -/
def fillSurfsOfMat (surfs : Nat → List FStage) (p soff doff dynStart mIdx : Nat) :
    List Nat → (Nat → List FStageState) → Nat → Nat →
    List (Nat × List FStageState) →
    (Nat → List FStageState) × Nat × Nat × List (Nat × List FStageState)
  | [], store, cs, cd, copies => (store, cs, cd, copies)
  | sid :: rest, store, cs, cd, copies =>
    let r := fillStages p soff doff dynStart mIdx (surfs sid) (store sid) cs cd
    let store2 : Nat → List FStageState := fun s => if s = sid then r.1 else store s
    let copies2 := if r.2.2.2 then copies ++ [(sid, r.1)] else copies
    fillSurfsOfMat surfs p soff doff dynStart mIdx rest store2 r.2.1 r.2.2.1 copies2

/-- The outer fill loop over all materials of all packs in order
(lines 696-761); `tbl` pairs each material with its laid-out static and
dynamic base offsets, and `mIdx` is its index. Each material starts with
fresh instance counters (`currentStatic/DynamicDrawSurfCount` are zero on a
fresh Material). -/
def fillAllMats (surfs : Nat → List FStage) (dynStart : Nat) :
    List (FMaterial × Nat × Nat) → Nat → (Nat → List FStageState) →
    List (Nat × List FStageState) →
    (Nat → List FStageState) × List (Nat × List FStageState)
  | [], _, store, copies => (store, copies)
  | (m, soff, doff) :: rest, mIdx, store, copies =>
    let r := fillSurfsOfMat surfs m.lm.paddedSize soff doff dynStart mIdx
      m.drawSurfs store 0 0 copies
    fillAllMats surfs dynStart rest (mIdx + 1) r.1 r.2.2.2

/-- The laid-out material table: each material in pack order with its static
and dynamic base offsets from the layout passes. -/
def fillTable (mats : List FMaterial) : List (FMaterial × Nat × Nat) :=
  (mats.zip (generateLayout (mats.map FMaterial.lm)).laid).map
    (fun x => (x.1, x.2.staticMaterialsSSBOOffset, x.2.dynamicMaterialsSSBOOffset))

/-- The fill phase of `GenerateWorldMaterialsBuffer`: layout, then the fill
loop from the zero-initialized per-surface state; result is the final store
and the `dynamicDrawSurfs` snapshots. -/
def buildWorldMaterials (mats : List FMaterial) (surfs : Nat → List FStage) :
    (Nat → List FStageState) × List (Nat × List FStageState) :=
  fillAllMats surfs (generateLayout (mats.map FMaterial.lm)).dynamicDrawSurfsOffset
    (fillTable mats) 0 (fun sid => (surfs sid).map (fun _ => ⟨0, false⟩)) []

/-- The updater guard (e.g. line 210; the three extra flags are folded into
`dynamic` by `ComputeDynamics`, line 190). -/
def stageUpdated (stg : FStage) (st : FStageState) : Bool :=
  !st.initialized || stg.dynamic

/-- The default material used by out-of-range lookups. -/
def dfltFMaterial : FMaterial := ⟨⟨0, 0, 0⟩, []⟩

/-- The write windows `UpdateDynamicSurfaces` issues for one snapshot
surface: one padded-stride window per stage that passes the updater guard,
at the stage's slot offset from the mapping base `dynStart`. -/
def copyWrites (mats : List FMaterial) (dynStart : Nat) (surfs : Nat → List FStage)
    (c : Nat × List FStageState) : List (Nat × Nat) :=
  ((surfs c.1).zip c.2).filterMap (fun pr =>
    if stageUpdated pr.1 pr.2 then
      some (dynStart + pr.2.materialsSSBOOffset *
              (mats.getD pr.1.material dfltFMaterial).lm.paddedSize,
            (mats.getD pr.1.material dfltFMaterial).lm.paddedSize)
    else none)

/-- All write windows of one `UpdateDynamicSurfaces` call (lines 1623-1643):
nothing when the dynamic region is empty (line 1624); otherwise the `memset`
of the whole mapped range (line 1631) followed by each snapshot surface's
stage writes. Offsets are absolute buffer offsets (the mapping starts at
`dynStart`). -/
def updateDynamicSurfacesWrites (mats : List FMaterial) (surfs : Nat → List FStage)
    (dynStart dynSize : Nat) (copies : List (Nat × List FStageState)) :
    List (Nat × Nat) :=
  if dynSize = 0 then []
  else (dynStart, dynSize) :: copies.flatMap (copyWrites mats dynStart surfs)

/-- Apply a list of write windows to a buffer: an address covered by some
window takes the written data, every other address keeps its old value. -/
def applyWrites (writes : List (Nat × Nat)) (data buf : Nat → Nat) : Nat → Nat :=
  fun addr => if writes.any (fun w => w.1 ≤ addr && addr < w.1 + w.2) then data addr
    else buf addr

/-- The failing input: material 0 (padded stride 4, one dynamic instance)
and material 1 (padded stride 150, one static instance), both drawing
surface 0. -/
def c6Mats : List FMaterial := [⟨⟨4, 0, 1⟩, [0]⟩, ⟨⟨150, 1, 0⟩, [0]⟩]

/-- Surface 0 has a dynamic stage of material 0 followed by a static stage
of material 1. -/
def c6Surfs : Nat → List FStage := fun sid =>
  if sid = 0 then [⟨true, 0⟩, ⟨false, 1⟩] else []

/-- The buffer layout for the failing input: dynamicDrawSurfsOffset 152,
dynamicDrawSurfsSize 148, totalSize 300. -/
def c6Layout : LayoutResult := generateLayout (c6Mats.map FMaterial.lm)

/-- The write windows of the first `UpdateDynamicSurfaces` call after the
build, on the failing input. -/
def c6Writes : List (Nat × Nat) :=
  updateDynamicSurfacesWrites c6Mats c6Surfs c6Layout.dynamicDrawSurfsOffset
    c6Layout.dynamicDrawSurfsSize (buildWorldMaterials c6Mats c6Surfs).2

/-- C6: code bug. The claim says `UpdateDynamicSurfaces` writes only within
the mapped dynamic region `[dynamicDrawSurfsOffset, dynamicDrawSurfsOffset +
dynamicDrawSurfsSize)`. On the failing input it does not: surface 0 is
snapshotted into `dynamicDrawSurfs` (Material.cpp line 757) during material
0's fill pass, before material 1's pass assigns the slot of the surface's
static stage, so the snapshot carries `initialized = false` for that stage;
the updater guard `!initialized || dynamic` (line 210) then passes and the
updater writes material 1's full 150-word padded window at the stage's
pre-build offset value from the mapping base (lines 207-208, 248). The
window's length alone exceeds `dynamicDrawSurfsSize = 148`, so the write
runs past the mapped range — here to 302 > 300 — whatever the pre-build
offset value is. The halves of the claim that do hold at this input: every
write starts at or after `dynamicDrawSurfsOffset`, so the static region
below it is unchanged. -/
theorem updateDynamicSurfaces_writes_past_mapped_range :
    (∃ w ∈ c6Writes, c6Layout.dynamicDrawSurfsSize < w.2 ∧
      c6Layout.dynamicDrawSurfsOffset + c6Layout.dynamicDrawSurfsSize < w.1 + w.2) ∧
    ∀ w ∈ c6Writes, c6Layout.dynamicDrawSurfsOffset ≤ w.1 := by decide

end Daemon
